import Mathlib

/-!
Verification of the skill-atlas generation pipeline.

This file gives a shallow embedding, in Lean, of the pipeline code of the
repository (lib/guide-builder.ts, lib/source-discovery.ts, lib/tinyfish.ts and
the generate-guide route), and proves or refutes the frozen claims about it.

Conventions of the embedding:
* JavaScript strings are Lean `String`s; the handful of built-in string
  operations the code uses (`trim`, `split(/\s+/)`, `toLowerCase`,
  `startsWith`, `includes`, `slice`) are re-implemented below on `List Char`
  so that every definition is executable and kernel-reducible.
* Arbitrary JavaScript values (the `unknown` payloads coming back from the
  scraping agent) are the inductive type `JSValue`; a missing object field
  reads as `JSValue.undefined`, exactly like property access on a JS object.
* Platform functions that are not part of the repository (the `JSON.parse`
  string parser, `new URL` normalization, `encodeURIComponent`,
  `Date.toLocaleString`, the DuckDuckGo `search` call, the TinyFish fetch)
  are threaded as explicit function arguments (oracles); every theorem
  quantifies over them, and witnesses instantiate them concretely.
* Asynchronous code is modelled by its data flow: `Promise.all` over a
  `map` is a Lean `List.map`; an SSE stream is the list of parsed events it
  delivers; a thrown exception is an `Option`/`none` result.
-/

/-! ### JavaScript string primitives -/

/-- Whitespace class used by `trim`, `split(/\s+/)` and `replace(/\s+/g, " ")`
(the ASCII part of the JS `\s` class; the exotic Unicode spaces never occur
in the strings the pipeline builds). -/
def isWs (c : Char) : Bool :=
  c = ' ' || c = '\t' || c = '\n' || c = '\r' || c = '\x0b' || c = '\x0c'

/-- `trim` on the character list: drop leading then trailing whitespace. -/
def trimChars (l : List Char) : List Char :=
  List.rdropWhile isWs (List.dropWhile isWs l)

/-- JavaScript `String.prototype.trim`. -/
def jsTrim (s : String) : String := ⟨trimChars s.data⟩

/-- Does `pat` occur at the start of `l`? (JS `startsWith`.) -/
def charsLead : List Char → List Char → Bool
  | _, [] => true
  | [], _ :: _ => false
  | a :: as, b :: bs => a = b && charsLead as bs

/-- Does `pat` occur anywhere inside `l`? (JS `includes`.) -/
def charsHas : List Char → List Char → Bool
  | [], pat => pat.isEmpty
  | l@(_ :: rest), pat => charsLead l pat || charsHas rest pat

/-- JavaScript `String.prototype.startsWith`. -/
def strStartsWith (s pat : String) : Bool := charsLead s.data pat.data

/-- JavaScript `String.prototype.endsWith`. -/
def strEndsWith (s pat : String) : Bool := charsLead s.data.reverse pat.data.reverse

/-- JavaScript `String.prototype.includes`. -/
def strContains (s pat : String) : Bool := charsHas s.data pat.data

/-- JavaScript `String.prototype.toLowerCase` (ASCII; the code only ever
lowercases URLs, hostnames and extracted labels). -/
def strToLower (s : String) : String := ⟨s.data.map Char.toLower⟩

/-- JavaScript `String.prototype.toUpperCase` (ASCII). -/
def strToUpper (s : String) : String := ⟨s.data.map Char.toUpper⟩

/-- `s.slice(n)`: drop the first `n` characters. -/
def strDrop (s : String) (n : Nat) : String := ⟨s.data.drop n⟩

/-- `s.slice(0, -n)`: drop the last `n` characters. -/
def strDropRight (s : String) (n : Nat) : String := ⟨s.data.take (s.data.length - n)⟩

/-- `s.slice(0, n)`: take the first `n` characters. -/
def strTake (s : String) (n : Nat) : String := ⟨s.data.take n⟩

/-- `s.slice(-n)`: the last `n` characters. -/
def strTakeRight (s : String) (n : Nat) : String := ⟨s.data.drop (s.data.length - n)⟩

/-- `split` at runs of separator characters, on characters: the pieces
between maximal separator runs (JS keeps the empty piece in front of a
leading run and behind a trailing run, and returns one empty piece for the
empty string).  The boolean records whether the scanner stands inside a
separator run whose piece boundary was already emitted. -/
def splitSepAux (sep : Char → Bool) : Bool → List Char → List Char → List (List Char)
  | _, [], acc => [acc.reverse]
  | inRun, c :: rest, acc =>
    if sep c then
      if inRun then splitSepAux sep true rest acc
      else acc.reverse :: splitSepAux sep true rest []
    else splitSepAux sep false rest (c :: acc)

/-- `split(/\s+/)` on characters. -/
def splitWsAux (l : List Char) : List (List Char) := splitSepAux isWs false l []

/-- `countWords` from lib/guide-builder.ts:
`text.trim().split(/\s+/).filter(Boolean).length`. -/
def countWords (s : String) : Nat :=
  ((splitWsAux (jsTrim s).data).filter (fun t => !t.isEmpty)).length

/-- `replace(/\s+/g, " ")` on characters: collapse each maximal whitespace
run to a single space (the boolean records whether the scanner stands inside
a run whose space was already emitted). -/
def collapseWsAux : Bool → List Char → List Char
  | _, [] => []
  | inRun, c :: rest =>
    if isWs c then
      if inRun then collapseWsAux true rest
      else ' ' :: collapseWsAux true rest
    else c :: collapseWsAux false rest

/-- `replace(/\s+/g, " ")` on strings. -/
def collapseWs (s : String) : String := ⟨collapseWsAux false s.data⟩

/-! ### JavaScript values

`unknown` payloads are modelled by `JSValue`.  `undefined` is the JavaScript
value of the same name (also the result of reading a missing object
field). -/

inductive JSValue where
  | undefined
  | null
  | bool (b : Bool)
  | num (n : Int)
  | str (s : String)
  | arr (items : List JSValue)
  | obj (fields : List (String × JSValue))

/-- `v === undefined`. -/
def isUndefined : JSValue → Bool
  | .undefined => true
  | _ => false

/-- Property access `v[key]`: a missing field (or access on an array, which
has no such named property) reads as `undefined`.  JSON duplicates keep the
last occurrence, hence the reversed lookup. -/
def getField : JSValue → String → JSValue
  | .obj fields, key =>
    match fields.reverse.find? (fun f => f.1 = key) with
    | some f => f.2
    | none => .undefined
  | _, _ => .undefined

/-- JavaScript truthiness. -/
def truthy : JSValue → Bool
  | .undefined => false
  | .null => false
  | .bool b => b
  | .num n => n != 0
  | .str s => !s.isEmpty
  | .arr _ => true
  | .obj _ => true

/-- JavaScript `a || b`. -/
def jsOr (a b : JSValue) : JSValue := if truthy a then a else b

/-- JavaScript `a ?? b`. -/
def jsCoalesce (a b : JSValue) : JSValue :=
  match a with
  | .undefined => b
  | .null => b
  | v => v

/-- JavaScript `a || b` on an optional string field (`undefined` and `""` are
falsy). -/
def jsOrStr (a : Option String) (b : String) : String :=
  match a with
  | some s => if s.isEmpty then b else s
  | none => b

/-- A rendering of a JSON value, standing in for the string produced by
`JSON.stringify(v, null, 2)` on defined values (indentation and string
escaping are immaterial to every claim: only *whether* a string is produced
matters, plus the fact that it is some fixed string). -/
def renderJson : JSValue → String
  | .undefined => "null"
  | .null => "null"
  | .bool true => "true"
  | .bool false => "false"
  | .num n => toString n
  | .str s => "\"" ++ s ++ "\""
  | .arr items =>
    "[" ++
      String.intercalate "," (items.attach.map (fun x => renderJson x.1)) ++
    "]"
  | .obj fields =>
    "\x7b" ++
      String.intercalate ","
        (((fields.filter (fun f => !(isUndefined f.2))).attach).map
          (fun f => "\"" ++ f.1.1 ++ "\":" ++ renderJson f.1.2)) ++
    "\x7d"
decreasing_by
  · have h1 : sizeOf x.1 < sizeOf items := List.sizeOf_lt_of_mem x.2
    simp only [JSValue.arr.sizeOf_spec]
    omega
  · have hmem : f.1 ∈ fields := List.mem_of_mem_filter f.2
    have h1 : sizeOf f.1 < sizeOf fields := List.sizeOf_lt_of_mem hmem
    have h2 : sizeOf f.1.2 < sizeOf f.1 := by
      obtain ⟨a, b⟩ := f.1
      simp only [Prod.mk.sizeOf_spec]
      omega
    simp only [JSValue.obj.sizeOf_spec]
    omega

/-- `JSON.stringify(v, null, 2)`: `undefined` (given `undefined`, a function
or a symbol) is modelled as `none`; any other value stringifies. -/
def jsonStringify : JSValue → Option String
  | .undefined => none
  | v => some (renderJson v)

/-! ### Shared types (lib/types.ts) -/

inductive SourceType where
  | docs
  | github
  | stackoverflow
  | blog
deriving DecidableEq, Repr

inductive PipelinePhase where
  | idle
  | discovering
  | scraping
  | synthesizing
  | complete
  | error
deriving DecidableEq, Repr

structure DiscoveredSource where
  id : String
  type : SourceType
  title : String
  url : String
  reason : String
  query : String
deriving DecidableEq, Repr

/-- `ApiReference`; the optional `signature` is `""` when absent (a missing
field and the empty string are indistinguishable to every consumer, which
only tests truthiness). -/
structure ApiReference where
  name : String
  description : String
  signat : String := ""
deriving DecidableEq, Repr

structure PracticalExample where
  title : String
  code : String
  explanation : String := ""
  language : String := ""
deriving DecidableEq, Repr

structure CommonIssue where
  issue : String
  fix : String
deriving DecidableEq, Repr

structure ResourceLink where
  label : String
  url : String
  note : String := ""
deriving DecidableEq, Repr

structure StructuredExtraction where
  overview : String
  coreConcepts : List String
  apis : List ApiReference
  examples : List PracticalExample
  commonIssues : List CommonIssue
  bestPractices : List String
  resources : List ResourceLink
  rawText : String
deriving DecidableEq, Repr

structure ScrapeSuccess where
  source : DiscoveredSource
  extracted : StructuredExtraction
  wordCount : Nat
deriving DecidableEq, Repr

/-- `ScrapeResult = ScrapeSuccess | ScrapeFailure` (the `status`
discriminator becomes the constructor). -/
inductive ScrapeResult where
  | success (s : ScrapeSuccess)
  | failure (source : DiscoveredSource) (error : String)
deriving DecidableEq, Repr

/-- The source of a scrape result, whichever branch it is in. -/
def ScrapeResult.source : ScrapeResult → DiscoveredSource
  | .success s => s.source
  | .failure src _ => src

structure GuideBuildResult where
  markdown : String
  sections : List String
deriving DecidableEq, Repr

structure GenerationStats where
  sourceCount : Nat
  successCount : Nat
  generatedWords : Nat
deriving DecidableEq, Repr

inductive SourceStatus where
  | pending
  | scraping
  | complete
  | error
deriving DecidableEq, Repr

/-- The wire events of the pipeline (the `StreamEvent` union). -/
inductive StreamEvent where
  | phase (phase : PipelinePhase) (message : String)
  | discoveryComplete (sources : List DiscoveredSource)
  | sourceUpdate (sourceId : String) (status : SourceStatus)
      (step : Option String) (streamingUrl : Option String)
  | sourceComplete (sourceId : String) (wordCount : Nat)
  | sourceError (sourceId : String) (error : String)
  | guideChunk (chunk : String)
  | complete (guide : String) (sources : List DiscoveredSource)
      (stats : GenerationStats)
  | error (message : String)
deriving DecidableEq, Repr

/-! ### Extraction normalizer (lib/guide-builder.ts) -/

/-- `stripCodeFence`. -/
def stripCodeFence (input : String) : String :=
  let text := jsTrim input
  let text :=
    if strStartsWith text "```json" then strDrop text 7
    else if strStartsWith text "```" then strDrop text 3
    else text
  let text := if strEndsWith text "```" then strDropRight text 3 else text
  jsTrim text

/-- `firstString(...values)`: the first argument that is a string with
non-empty trim, trimmed; otherwise `""`. -/
def firstString : List JSValue → String
  | [] => ""
  | v :: rest =>
    match v with
    | .str s => if (jsTrim s).isEmpty then firstString rest else jsTrim s
    | _ => firstString rest

/-- `parseMaybeObject`; `parse` is the platform `JSON.parse`, returning
`none` where it would throw.  Arrays count as objects (`typeof` is
`"object"`), exactly as in the source. -/
def parseMaybeObject (parse : String → Option JSValue) : JSValue → Option JSValue
  | .obj fields => some (.obj fields)
  | .arr items => some (.arr items)
  | .str s =>
    match parse (stripCodeFence s) with
    | some (.obj fields) => some (.obj fields)
    | some (.arr items) => some (.arr items)
    | _ => none
  | _ => none

/-- `toStringList`. -/
def toStringList : JSValue → List String
  | .arr entries => entries.attach.map (fun e => stringEntry e.1) |>.flatMap id
  | _ => []
where
  /-- One loop iteration: the zero-or-one strings an entry contributes. -/
  stringEntry : JSValue → List String
  | .str s => if (jsTrim s).isEmpty then [] else [jsTrim s]
  | .obj fields =>
    let candidate := firstString
      [getField (.obj fields) "title", getField (.obj fields) "name",
       getField (.obj fields) "value", getField (.obj fields) "text",
       getField (.obj fields) "description"]
    if candidate.isEmpty then [] else [candidate]
  | .arr _ => []
  | _ => []

/-- `toApiList`. -/
def toApiList : JSValue → List ApiReference
  | .arr entries => entries.attach.map (fun e => apiEntry e.1) |>.flatMap id
  | _ => []
where
  apiEntry : JSValue → List ApiReference
  | .str s =>
    if (jsTrim s).isEmpty then []
    else [{ name := jsTrim s, description := "Referenced API from source content." }]
  | .obj fields =>
    let o := JSValue.obj fields
    let name := firstString
      [getField o "name", getField o "method", getField o "api", getField o "function"]
    let description := firstString
      [getField o "description", getField o "explanation",
       getField o "purpose", getField o "detail"]
    if name.isEmpty then []
    else
      [{ name
         description := if description.isEmpty then "No description provided in source." else description
         signat := firstString
           [getField o "signature", getField o "syntax", getField o "example"] }]
  | .arr _ => []
  | _ => []

/-- `toExampleList`. -/
def toExampleList : JSValue → List PracticalExample
  | .arr entries => entries.attach.map (fun e => exampleEntry e.1) |>.flatMap id
  | _ => []
where
  exampleEntry : JSValue → List PracticalExample
  | .str s => if (jsTrim s).isEmpty then [] else [{ title := "Example", code := jsTrim s }]
  | .obj fields =>
    let o := JSValue.obj fields
    let code := firstString
      [getField o "code", getField o "snippet", getField o "example", getField o "content"]
    if code.isEmpty then []
    else
      let title := firstString [getField o "title", getField o "name"]
      [{ title := if title.isEmpty then "Example" else title
         code
         explanation := firstString
           [getField o "explanation", getField o "why",
            getField o "context", getField o "description"]
         language := firstString [getField o "language", getField o "lang"] }]
  | .arr _ => []
  | _ => []

/-- `toIssueList`. -/
def toIssueList : JSValue → List CommonIssue
  | .arr entries => entries.attach.map (fun e => issueEntry e.1) |>.flatMap id
  | _ => []
where
  issueEntry : JSValue → List CommonIssue
  | .str s =>
    if (jsTrim s).isEmpty then []
    else [{ issue := jsTrim s
            fix := "Validate context and use the accepted solution from source discussions." }]
  | .obj fields =>
    let o := JSValue.obj fields
    let issue := firstString
      [getField o "issue", getField o "problem", getField o "title",
       getField o "error", getField o "mistake"]
    if issue.isEmpty then []
    else
      let fix := firstString
        [getField o "fix", getField o "solution",
         getField o "resolution", getField o "answer"]
      [{ issue
         fix := if fix.isEmpty
           then "Review the thread for the accepted fix and adjust implementation details."
           else fix }]
  | .arr _ => []
  | _ => []

/-- `toResourceList`. -/
def toResourceList : JSValue → List ResourceLink
  | .arr entries => entries.attach.map (fun e => resourceEntry e.1) |>.flatMap id
  | _ => []
where
  resourceEntry : JSValue → List ResourceLink
  | .str s => if strStartsWith s "http" then [{ label := s, url := s }] else []
  | .obj fields =>
    let o := JSValue.obj fields
    let url := firstString [getField o "url", getField o "link", getField o "href"]
    if !(strStartsWith url "http") then []
    else
      let label := firstString [getField o "label", getField o "title", getField o "name"]
      [{ label := if label.isEmpty then url else label
         url
         note := firstString
           [getField o "note", getField o "reason", getField o "description"] }]
  | .arr _ => []
  | _ => []

/-- `deriveOverview`. -/
def deriveOverview (rawText : String) : String :=
  let text := jsTrim (collapseWs rawText)
  if text.isEmpty then "No high-level overview could be extracted from this source."
  else strTake text 360

/-- The shared loop of `uniqueByLowerCase` and `uniqueResources`: walk the
values, keep the first value per key, stop as soon as `max` are kept (the
source's `break` after each iteration's push is the length test, here
distributed over the two branches).  The loop state `(out, seen)` is
returned in full (the source returns only `out`). -/
def dedupCapGo (key : α → String) (max : Nat) :
    List α → List String → List α → List α × List String
  | [], seen, out => (out, seen)
  | v :: rest, seen, out =>
    if seen.contains (key v) then
      if out.length ≥ max then (out, seen)
      else dedupCapGo key max rest seen out
    else
      if (out ++ [v]).length ≥ max then (out ++ [v], key v :: seen)
      else dedupCapGo key max rest (key v :: seen) (out ++ [v])

/-- `uniqueByLowerCase`. -/
def uniqueByLowerCase (values : List String) (max : Nat) : List String :=
  (dedupCapGo strToLower max values [] []).1

/-- `uniqueResources`. -/
def uniqueResources (values : List ResourceLink) (max : Nat) : List ResourceLink :=
  (dedupCapGo (fun r => strToLower r.url) max values [] []).1

/-- `extractRawText`. -/
def extractRawText (parsed : JSValue) (fallback : JSValue) : String :=
  firstString
    [getField parsed "rawText", getField parsed "content", getField parsed "body",
     getField parsed "markdown", getField parsed "notes",
     match fallback with | .str s => .str s | _ => .str ""]

/-- `normalizeExtraction`.  Result `none` models a thrown exception: on the
text-only path, `JSON.stringify(raw, null, 2)` evaluates to `undefined` when
`raw` is `undefined`, and `deriveOverview(undefined)` then throws a
`TypeError` (`undefined.replace` does not exist). -/
def normalizeExtraction (parse : String → Option JSValue) (raw : JSValue)
    (source : DiscoveredSource) : Option StructuredExtraction :=
  match parseMaybeObject parse raw with
  | none =>
    let text : Option String :=
      match raw with
      | .str s => some s
      | v => jsonStringify v
    text.map fun text =>
      { overview := deriveOverview text
        coreConcepts := []
        apis := []
        examples := []
        commonIssues := []
        bestPractices := []
        resources := [{ label := source.title, url := source.url, note := source.reason }]
        rawText := text }
  | some parsed =>
    let rawText := extractRawText parsed raw
    let overview := firstString
      [getField parsed "overview", getField parsed "summary", getField parsed "intro"]
    some
      { overview := if overview.isEmpty then deriveOverview rawText else overview
        coreConcepts := uniqueByLowerCase
          (toStringList (getField parsed "coreConcepts") ++
           toStringList (getField parsed "keyPoints")) 20
        apis := toApiList
          (jsOr (getField parsed "apis")
            (jsOr (getField parsed "apiMethods") (getField parsed "methods")))
        examples := toExampleList
          (jsOr (getField parsed "examples") (getField parsed "codeExamples"))
        commonIssues := toIssueList
          (jsOr (getField parsed "commonIssues")
            (jsOr (getField parsed "issues")
              (jsOr (getField parsed "gotchas") (getField parsed "commonMistakes"))))
        bestPractices := uniqueByLowerCase
          (toStringList (getField parsed "bestPractices") ++
           toStringList (getField parsed "tips")) 20
        resources := uniqueResources
          (toResourceList (jsOr (getField parsed "resources") (getField parsed "links")) ++
           [{ label := source.title, url := source.url, note := source.reason }]) 20
        rawText := rawText }

/-! ### TinyFish client (lib/tinyfish.ts) -/

/-- A parsed SSE event from the agent, with exactly the fields the client
reads.  String-typed fields are `Option String` (`none` = absent); the four
result-carrying fields and `url` are arbitrary JSON values. -/
structure TinyFishEvent where
  type : Option String := none
  status : Option String := none
  message : Option String := none
  step : Option String := none
  purpose : Option String := none
  action : Option String := none
  description : Option String := none
  text : Option String := none
  content : Option String := none
  streamingUrl : Option String := none
  url : JSValue := .undefined
  resultJson : JSValue := .undefined
  result : JSValue := .undefined
  output : JSValue := .undefined
  data : JSValue := .undefined

/-- `TinyFishRunResult`; the optional `result` field is `JSValue.undefined` when
absent, mirroring `runResult.result === undefined`. -/
structure TinyFishRunResult where
  success : Bool
  result : JSValue := .undefined
  error : Option String := none
  streamingUrl : Option String := none

/-- `readStepMessage`. -/
def readStepMessage (e : TinyFishEvent) : String :=
  jsOrStr e.purpose (jsOrStr e.action (jsOrStr e.message (jsOrStr e.step
    (jsOrStr e.description (jsOrStr e.text (jsOrStr e.content
      "Processing source..."))))))

/-- `readStreamingUrl`. -/
def readStreamingUrl (e : TinyFishEvent) : Option String :=
  match e.streamingUrl with
  | some u => if u.length > 0 then some u else fromUrlField e
  | none => fromUrlField e
where
  fromUrlField (e : TinyFishEvent) : Option String :=
    match e.url with
    | .str u => if strStartsWith u "http" then some u else none
    | _ => none

/-- `isComplete` (the TinyFish event test; note `!status` is true both for a
missing status and for the empty string). -/
def isCompleteEvent (e : TinyFishEvent) : Bool :=
  (match e.type with
   | some t => strToUpper t = "COMPLETE"
   | none => false) &&
  (match e.status.map strToUpper with
   | none => true
   | some u => u = "" || u = "COMPLETED" || u = "DONE")

/-- `isFailure` (the TinyFish event test). -/
def isFailureEvent (e : TinyFishEvent) : Bool :=
  (match e.type with
   | some t => strToUpper t = "ERROR"
   | none => false) ||
  (match e.status.map strToUpper with
   | none => false
   | some u => u = "FAILED" || u = "ERROR")

/-- The read loop of `runTinyFishTask` over the stream's parsed events
(`parseSseLine` already dropped blank/unparseable lines), threading the
latest streaming URL. -/
def runTinyFishLoop : List TinyFishEvent → Option String → TinyFishRunResult
  | [], streamingUrl =>
    { success := false
      error := some "TinyFish stream ended before a completion event."
      streamingUrl := streamingUrl }
  | e :: rest, streamingUrl =>
    let streamingUrl := match readStreamingUrl e with
      | some u => some u
      | none => streamingUrl
    if isCompleteEvent e then
      { success := true
        result := jsCoalesce e.resultJson (jsCoalesce e.result
          (jsCoalesce e.output (jsCoalesce e.data .null)))
        streamingUrl := streamingUrl }
    else if isFailureEvent e then
      { success := false
        error := some (jsOrStr e.message "TinyFish reported a failure event.")
        streamingUrl := streamingUrl }
    else runTinyFishLoop rest streamingUrl

/-- What the TinyFish fetch produced: a thrown error, a non-OK response, an
OK response with no body, or an event stream. -/
inductive TinyFishFetch where
  | thrown (message : String)
  | notOk (status : Nat) (text : String)
  | noBody
  | stream (events : List TinyFishEvent)

/-- `runTinyFishTask` as a function of the fetch outcome. -/
def runTinyFishTask : TinyFishFetch → TinyFishRunResult
  | .thrown message => { success := false, error := some message }
  | .notOk status text =>
    { success := false
      error := some ("TinyFish request failed (" ++ toString status ++ "): " ++ text) }
  | .noBody => { success := false, error := some "TinyFish response body was empty." }
  | .stream events => runTinyFishLoop events none

/-! ### Source discovery (lib/source-discovery.ts) -/

/-- One raw DuckDuckGo result (the fields the code reads). -/
structure SearchResult where
  title : String
  url : String
  hostname : String
  description : String
  rawDescription : String
deriving DecidableEq, Repr

/-- The platform functions discovery depends on: the `search` call (`none`
models a thrown provider error), the `new URL` parser (returning the
serialized URL with the fragment cleared, `none` where the constructor
throws), and `encodeURIComponent`. -/
structure DiscoveryEnv where
  search : String → Option (List SearchResult)
  urlParse : String → Option String
  encodeURIComponent : String → String

def SOURCE_TYPES : List SourceType :=
  [.docs, .github, .stackoverflow, .blog]

/-- `SOURCE_QUERIES`. -/
def SOURCE_QUERIES : SourceType → List String
  | .docs =>
    ["{topic} official documentation", "{topic} api reference docs",
     "{topic} developer guide documentation", "{topic} getting started guide"]
  | .github =>
    ["{topic} site:github.com", "{topic} github issues",
     "{topic} github discussions", "{topic} github repository"]
  | .stackoverflow =>
    ["{topic} site:stackoverflow.com", "{topic} stackoverflow how to",
     "{topic} stackoverflow error", "{topic} stackoverflow best practice"]
  | .blog =>
    ["{topic} tutorial blog", "{topic} best practices guide",
     "{topic} tutorial dev.to OR medium.com OR hashnode", "{topic} deep dive explained"]

def KNOWN_BLOG_DOMAINS : List String :=
  ["dev.to", "medium.com", "hashnode.com", "freecodecamp.org", "digitalocean.com",
   "smashingmagazine.com", "css-tricks.com", "martinfowler.com", "substack.com"]

/-- `cleanSnippet`: strip `<...>` tag spans, collapse whitespace, trim. -/
def stripTags : List Char → List Char
  | [] => []
  | '<' :: rest => stripTags ((rest.dropWhile (fun c => c ≠ '>')).drop 1)
  | c :: rest => c :: stripTags rest
termination_by l => l.length
decreasing_by
  · simp only [List.length_cons]
    have h1 := List.Sublist.length_le (List.dropWhile_sublist (l := rest) (fun c => c ≠ '>'))
    have h2 := List.length_drop 1 (rest.dropWhile (fun c => c ≠ '>'))
    omega
  · simp [List.length_cons, Nat.lt_succ_self]

def cleanSnippet (value : String) : String :=
  jsTrim (collapseWs ⟨stripTags value.data⟩)

/-- `normalizeUrl`: parse, clear the fragment, strip one trailing slash; on a
parse failure return the input unchanged. -/
def normalizeUrl (env : DiscoveryEnv) (url : String) : String :=
  match env.urlParse url with
  | none => url
  | some normalized =>
    if strEndsWith normalized "/" then strDropRight normalized 1 else normalized

/-- `createSourceId`. -/
def typeSlug : SourceType → String
  | .docs => "docs"
  | .github => "github"
  | .stackoverflow => "stackoverflow"
  | .blog => "blog"

def isAlnum (c : Char) : Bool :=
  ('a' ≤ c && c ≤ 'z') || ('A' ≤ c && c ≤ 'Z') || ('0' ≤ c && c ≤ '9')

def createSourceId (env : DiscoveryEnv) (type : SourceType) (url : String)
    (index : Nat) : String :=
  let compact := strTakeRight ⟨(normalizeUrl env url).data.filter isAlnum⟩ 14
  typeSlug type ++ "-" ++ toString index ++ "-" ++ compact

/-- `tokenizeTopic`: lowercase, split on whitespace/slash/dash runs, keep
tokens longer than two characters. -/
def isTopicSep (c : Char) : Bool := isWs c || c = '/' || c = '-'

def tokenizeTopic (topic : String) : List String :=
  ((splitSepAux isTopicSep false (strToLower topic).data []).map
    (fun t => jsTrim ⟨t⟩)).filter (fun token => token.length > 2)

/-- `hasAny`. -/
def hasAny (value : String) (needles : List String) : Bool :=
  needles.any (fun needle => strContains value needle)

/-- `isDocsResult`. -/
def isDocsResult (result : SearchResult) : Bool :=
  let hostname := strToLower result.hostname
  let url := strToLower result.url
  let docsHints := ["docs.", "developer.", "readthedocs", "/docs", "/api", "/reference",
    "/manual", "/guide", "/learn", "/getting-started", "wiki"]
  if strContains hostname "github.com" || strContains hostname "stackoverflow.com" then
    false
  else if hasAny hostname KNOWN_BLOG_DOMAINS || strContains hostname "blog." then
    false
  else
    hasAny hostname docsHints || hasAny url docsHints

/-- `isGithubResult`. -/
def isGithubResult (result : SearchResult) : Bool :=
  strContains (strToLower result.hostname) "github.com"

/-- `isStackOverflowResult`. -/
def isStackOverflowResult (result : SearchResult) : Bool :=
  let hostname := strToLower result.hostname
  strContains hostname "stackoverflow.com" || strContains hostname "stackexchange.com"

/-- `isBlogResult`. -/
def isBlogResult (result : SearchResult) : Bool :=
  let hostname := strToLower result.hostname
  let url := strToLower result.url
  if strContains hostname "github.com" || strContains hostname "stackoverflow.com" then
    false
  else
    hasAny hostname KNOWN_BLOG_DOMAINS || strContains hostname "blog." ||
    strContains url "/blog/" || strContains url "/tutorial" ||
    strContains url "/guide" || strContains url "/post/" || strContains url "/article"

/-- `matchesType`. -/
def matchesType (result : SearchResult) : SourceType → Bool
  | .docs => isDocsResult result
  | .github => isGithubResult result
  | .stackoverflow => isStackOverflowResult result
  | .blog => isBlogResult result

/-- `scoreResult`. -/
def scoreResult (result : SearchResult) (type : SourceType)
    (topicTokens : List String) : Nat :=
  let title := strToLower result.title
  let description := strToLower result.rawDescription
  let url := strToLower result.url
  let tokenScore := topicTokens.foldl
    (fun score token =>
      score + (if strContains title token then 2 else 0)
        + (if strContains description token then 1 else 0)
        + (if strContains url token then 1 else 0)) 0
  let bonus : Nat :=
    match type with
    | .docs =>
      (if strContains url "/docs" then 2 else 0) +
      (if strContains url "/reference" then 2 else 0)
    | .github =>
      (if strContains url "/discussions" then 2 else 0) +
      (if strContains url "/issues" then 2 else 0) +
      (if strContains url "/wiki" then 1 else 0)
    | .stackoverflow => if strContains url "/questions/" then 3 else 0
    | .blog =>
      (if strContains url "/tutorial" then 2 else 0) +
      (if strContains url "/guide" then 1 else 0)
  tokenScore + bonus

/-- `defaultFallbacks`. -/
def defaultFallbacks (env : DiscoveryEnv) (topic : String) (type : SourceType) :
    List DiscoveredSource :=
  let encoded := env.encodeURIComponent topic
  let make : String → String → Nat → DiscoveredSource := fun url title i =>
    { id := createSourceId env type url i
      type := type
      title := title
      url := url
      reason := "Fallback " ++ typeSlug type ++ " source for " ++ topic ++ "."
      query := topic ++ " " ++ typeSlug type }
  match type with
  | .docs =>
    [make ("https://www.google.com/search?q=" ++ encoded ++ "+official+documentation")
       (topic ++ " documentation search") 0,
     make ("https://www.google.com/search?q=" ++ encoded ++ "+api+reference+docs")
       (topic ++ " API reference") 1,
     make ("https://www.google.com/search?q=" ++ encoded ++ "+getting+started+guide")
       (topic ++ " getting started") 2]
  | .github =>
    [make ("https://github.com/search?q=" ++ encoded ++ "&type=repositories")
       (topic ++ " GitHub repos") 0,
     make ("https://github.com/search?q=" ++ encoded ++ "&type=discussions")
       (topic ++ " GitHub discussions") 1,
     make ("https://github.com/search?q=" ++ encoded ++ "&type=issues")
       (topic ++ " GitHub issues") 2]
  | .stackoverflow =>
    [make ("https://stackoverflow.com/search?q=" ++ encoded)
       (topic ++ " Stack Overflow search") 0,
     make ("https://stackoverflow.com/search?q=" ++ encoded ++ "+error")
       (topic ++ " SO common errors") 1,
     make ("https://stackoverflow.com/search?q=" ++ encoded ++ "+best+practice")
       (topic ++ " SO best practices") 2]
  | .blog =>
    [make ("https://dev.to/search?q=" ++ encoded) (topic ++ " dev.to articles") 0,
     make ("https://medium.com/search?q=" ++ encoded) (topic ++ " Medium articles") 1,
     make ("https://www.google.com/search?q=" ++ encoded ++ "+tutorial+blog")
       (topic ++ " tutorial search") 2]

/-- The `DiscoveredSource` record one selected search result becomes. -/
def pickedSource (env : DiscoveryEnv) (type : SourceType) (query : String)
    (entry : SearchResult × Nat) (index : Nat) : DiscoveredSource :=
  { id := createSourceId env type (normalizeUrl env entry.1.url) index
    type := type
    title := jsTrim entry.1.title
    url := normalizeUrl env entry.1.url
    reason := cleanSnippet
      (if entry.1.description.isEmpty then entry.1.rawDescription
       else entry.1.description)
    query := query }

/-- The inner result loop of `discoverByType` for one query's ranked
results: skip URLs already seen, otherwise select; the source's early
`return` on reaching the quota is modelled by the stop test at the next
entry (and the final `take`), which yields the same `(selected, seen)`
state. -/
def pickLoop (env : DiscoveryEnv) (type : SourceType) (query : String)
    (maxPerType : Nat) :
    List (SearchResult × Nat) → List DiscoveredSource → List String →
    List DiscoveredSource × List String
  | [], selected, seen => (selected, seen)
  | entry :: rest, selected, seen =>
    if selected.length ≥ maxPerType then (selected, seen)
    else if seen.contains (normalizeUrl env entry.1.url) then
      pickLoop env type query maxPerType rest selected seen
    else
      pickLoop env type query maxPerType rest
        (selected ++ [pickedSource env type query entry selected.length])
        (normalizeUrl env entry.1.url :: seen)

/-- The ranked candidate list for one query's results: filter by category
match, attach `score + 1` (the base score keeping every type-matched
result), sort by descending score (the JS comparator
`right.score - left.score`). -/
def rankedResults (type : SourceType) (topicTokens : List String)
    (results : List SearchResult) : List (SearchResult × Nat) :=
  List.mergeSort
    ((results.filter (fun r => matchesType r type)).map
      (fun r => (r, scoreResult r type topicTokens + 1)))
    (fun left right => right.2 ≤ left.2)

/-- The query loop of `discoverByType`; a provider error (`search` = `none`)
is swallowed and the loop continues. -/
def queryLoop (env : DiscoveryEnv) (type : SourceType) (topicTokens : List String)
    (maxPerType : Nat) :
    List String → List DiscoveredSource → List String →
    List DiscoveredSource × List String
  | [], selected, seen => (selected, seen)
  | query :: rest, selected, seen =>
    match env.search query with
    | none => queryLoop env type topicTokens maxPerType rest selected seen
    | some results =>
      queryLoop env type topicTokens maxPerType rest
        (pickLoop env type query maxPerType
          (rankedResults type topicTokens results) selected seen).1
        (pickLoop env type query maxPerType
          (rankedResults type topicTokens results) selected seen).2

/-- The fallback fill loop of `discoverByType`. -/
def fallbackLoop (maxPerType : Nat) :
    List DiscoveredSource → List DiscoveredSource → List String →
    List DiscoveredSource
  | [], selected, _ => selected
  | fallback :: rest, selected, seen =>
    let selected :=
      if seen.contains fallback.url then selected else selected ++ [fallback]
    if selected.length ≥ maxPerType then selected
    else fallbackLoop maxPerType rest selected seen

/-- `discoverByType`. -/
def discoverByType (env : DiscoveryEnv) (topic : String) (type : SourceType)
    (maxPerType : Nat) : List DiscoveredSource :=
  let topicTokens := tokenizeTopic topic
  let queries := (SOURCE_QUERIES type).map
    (fun template => template.replace "{topic}" topic)
  let organic := queryLoop env type topicTokens maxPerType queries [] []
  let selected :=
    if organic.1.length < maxPerType then
      fallbackLoop maxPerType (defaultFallbacks env topic type) organic.1 organic.2
    else organic.1
  selected.take maxPerType

/-- The cross-type dedup of `discoverSources` (`Map` insertion keeps the
first source per URL). -/
def dedupByUrl : List DiscoveredSource → List String → List DiscoveredSource
  | [], _ => []
  | s :: rest, seen =>
    if seen.contains s.url then dedupByUrl rest seen
    else s :: dedupByUrl rest (s.url :: seen)

/-- `discoverSources`. -/
def discoverSources (env : DiscoveryEnv) (topic : String) (maxPerType : Nat) :
    List DiscoveredSource :=
  let limit := Nat.max 1 (Nat.min maxPerType 3)
  let results := SOURCE_TYPES.map (fun type => discoverByType env topic type limit)
  dedupByUrl results.flatten []

/-! ### Guide synthesizer (lib/guide-builder.ts) -/

/-- `renderOverview`. -/
def renderOverview (results : List ScrapeSuccess) : String :=
  let overviewLines := uniqueByLowerCase
    ((results.map (fun item => item.extracted.overview)).filter (fun s => !s.isEmpty)) 4
  if overviewLines.isEmpty then
    "No reliable overview was extracted from the selected sources."
  else
    String.intercalate "\n" (overviewLines.map (fun line => "- " ++ line))

/-- `renderCoreConcepts`. -/
def renderCoreConcepts (results : List ScrapeSuccess) : String :=
  let concepts := uniqueByLowerCase
    (results.flatMap (fun item => item.extracted.coreConcepts)) 14
  let bestPractices := uniqueByLowerCase
    (results.flatMap (fun item => item.extracted.bestPractices)) 10
  let apis := results.flatMap
    (fun item => item.extracted.apis.map (fun api => (api, item.source.title)))
  let sec :=
    if !concepts.isEmpty then
      String.intercalate "\n" (concepts.map (fun concept => "- " ++ concept))
    else
      "- No explicit concept list found; review examples and resources for details."
  let sec :=
    if !apis.isEmpty then
      sec ++ "\n\n### API Surface\n\n" ++
        "| API | Description | Signature |\n" ++ "| --- | --- | --- |\n" ++
        String.join ((apis.take 14).map (fun api =>
          "| " ++ api.1.name ++ " | " ++ api.1.description ++ " _(from " ++ api.2 ++
          ")_ | " ++ (if !api.1.signat.isEmpty then "`" ++ api.1.signat ++ "`" else "n/a") ++
          " |\n"))
    else sec
  if !bestPractices.isEmpty then
    sec ++ "\n\n### Best Practices\n\n" ++
      String.intercalate "\n" (bestPractices.map (fun tip => "- " ++ tip))
  else sec

/-- `renderExamples`. -/
def renderExamples (results : List ScrapeSuccess) : String :=
  let examples := results.flatMap
    (fun item => item.extracted.examples.map (fun ex => (ex, item.source.title)))
  if examples.isEmpty then
    "No standalone code examples were extracted. Use the resources section to inspect original examples."
  else
    String.intercalate "\n\n" ((examples.take 8).enum.map (fun entry =>
      let language := if entry.2.1.language.isEmpty then "text" else entry.2.1.language
      let explanation :=
        if !entry.2.1.explanation.isEmpty then "\n" ++ entry.2.1.explanation
        else "\nSource included code without additional explanation."
      "### Example " ++ toString (entry.1 + 1) ++ ": " ++ entry.2.1.title ++
      "\n\n```" ++ language ++ "\n" ++ entry.2.1.code ++ "\n```\n" ++ explanation ++
      "\n\n_Source: " ++ entry.2.2 ++ "_"))

/-- `renderGotchas`. -/
def renderGotchas (results : List ScrapeSuccess) : String :=
  let issues := results.flatMap (fun item => item.extracted.commonIssues)
  if issues.isEmpty then
    "- No explicit gotchas were extracted; check linked GitHub and Stack Overflow sources for troubleshooting context."
  else
    String.intercalate "\n" ((issues.take 12).map (fun item =>
      "- **" ++ item.issue ++ "**\n  - Fix: " ++ item.fix))

/-- `renderResources`. -/
def renderResources (results : List ScrapeSuccess) : String :=
  let resources := uniqueResources
    (results.flatMap (fun item => item.extracted.resources)) 40
  String.intercalate "\n" (resources.map (fun resource =>
    "- [" ++ resource.label ++ "](" ++ resource.url ++ ")" ++
    (if !resource.note.isEmpty then " - " ++ resource.note else "")))

/-- `buildGuideMarkdown`.  `generatedAt` is the value of the
`new Date().toISOString()` clock read, and `fmt` the platform
`formatDate` (`new Date(iso).toLocaleString()`). -/
def buildGuideMarkdown (topic : String) (results : List ScrapeSuccess)
    (generatedAt : String) (fmt : String → String) : GuideBuildResult :=
  let header :=
    "# " ++ topic ++ " Skill Guide\n\nGenerated: " ++ fmt generatedAt ++
    "\nSources scraped successfully: " ++ toString results.length ++ "\n"
  let sections :=
    [header ++ "\n",
     "## Overview\n\n" ++ renderOverview results ++ "\n",
     "## Core Concepts\n\n" ++ renderCoreConcepts results ++ "\n",
     "## Practical Examples\n\n" ++ renderExamples results ++ "\n",
     "## Common Gotchas\n\n" ++ renderGotchas results ++ "\n",
     "## Resources\n\n" ++ renderResources results ++ "\n"]
  { markdown := String.intercalate "\n" sections
    sections := sections }

/-! ### Scrape orchestration and pipeline controller
(app/api/generate-guide/route.ts) -/

/-- The per-source body of the `Promise.all` fan-out, applied to the
already-awaited `runTinyFishTask` result; `none` models a thrown exception
rejecting the whole join (provably impossible, `scrapeOne_isSome`
below). -/
def scrapeOne (parse : String → Option JSValue) (source : DiscoveredSource)
    (runResult : TinyFishRunResult) : Option ScrapeResult :=
  if !runResult.success || isUndefined runResult.result then
    some (.failure source
      (jsOrStr runResult.error "TinyFish did not return extracted content."))
  else
    (normalizeExtraction parse runResult.result source).map fun extracted =>
      .success
        { source := source
          extracted := extracted
          wordCount := countWords extracted.rawText }

/-- `Promise.all(discoveredSources.map(...))`: one outcome per source, in
input order (`Promise.all` resolves positionally, regardless of completion
order); `agent` maps each source to its awaited TinyFish run result. -/
def scrapeAll (parse : String → Option JSValue)
    (sources : List DiscoveredSource)
    (agent : DiscoveredSource → TinyFishRunResult) : List (Option ScrapeResult) :=
  sources.map (fun source => scrapeOne parse source (agent source))

/-- Everything one run of the `POST` handler depends on, with the awaited
values of the external calls threaded as data: the request body, the API-key
check, the value returned by `discoverSources`, the multiplexed per-source
progress events of the scraping phase (an arbitrary interleaving — the
claims proved below hold for every interleaving), the awaited
`Promise.all` outcome list, the clock read and the date formatter. -/
structure RunInput where
  topicField : Option String
  hasApiKey : Bool
  discovered : List DiscoveredSource
  scrapeEvents : List StreamEvent
  scrapeResults : List ScrapeResult
  generatedAt : String
  fmt : String → String

/-- Is an event one of the per-source progress events the scraping phase
multiplexes? -/
def isProgressEvent : StreamEvent → Bool
  | .sourceUpdate _ _ _ _ => true
  | .sourceComplete _ _ => true
  | .sourceError _ _ => true
  | _ => false

/-- The `successfulScrapes` filter. -/
def successesOf (results : List ScrapeResult) : List ScrapeSuccess :=
  results.filterMap (fun r => match r with | .success s => some s | _ => none)

/-- The ordered event stream one run of the `POST` handler writes, as a
function of `RunInput`.  Every branch of the handler is reproduced: the two
validation returns, the two thrown fatal errors (caught and converted to a
`phase: error` plus a final `error` event), and the success path. -/
def runEvents (inp : RunInput) : List StreamEvent :=
  let topic := jsTrim (inp.topicField.getD "")
  if topic.isEmpty then [.error "Topic is required."]
  else if !inp.hasApiKey then
    [.error "TINYFISH_API_KEY is not configured on the server."]
  else
    let pre : List StreamEvent :=
      [.phase .discovering
        "Discovering relevant docs, GitHub, Stack Overflow, and blog sources..."]
    if inp.discovered.length = 0 then
      let message := "No sources were discovered for this topic."
      pre ++ [.phase .error message, .error message]
    else
      let pre := pre ++
        [.discoveryComplete inp.discovered,
         .phase .scraping
           ("Scraping " ++ toString inp.discovered.length ++
            " sources in parallel with TinyFish...")] ++
        inp.scrapeEvents
      let successfulScrapes := successesOf inp.scrapeResults
      if successfulScrapes.length = 0 then
        let message := "Scraping finished, but no source returned usable content."
        pre ++ [.phase .error message, .error message]
      else
        let guide := buildGuideMarkdown topic successfulScrapes inp.generatedAt inp.fmt
        let chunks := guide.sections.map (fun sec => sec ++ "\n")
        let finalGuide := jsTrim (String.join chunks)
        pre ++
          [.phase .synthesizing "Synthesizing a single markdown skill guide..."] ++
          chunks.map .guideChunk ++
          [.phase .complete "Guide generation complete.",
           .complete finalGuide inp.discovered
             { sourceCount := inp.discovered.length
               successCount := successfulScrapes.length
               generatedWords := countWords finalGuide }]

/-! ### Concrete fixtures for witnesses and counterexamples -/

/-- A `JSON.parse` oracle that always fails (no theorem below depends on the
parser's behaviour unless it instantiates it explicitly). -/
def parseNone : String → Option JSValue := fun _ => none

/-- A concrete discovered source. -/
def sampleSource : DiscoveredSource :=
  { id := "docs-0-sample"
    type := .docs
    title := "Sample Docs"
    url := "https://example.com/docs"
    reason := "Seed source."
    query := "sample docs" }

/-- Twenty distinct resource URLs, none of them `sampleSource.url`. -/
def c2urls : List String := (List.range 20).map (fun i => "http://r" ++ toString i)

/-- An extraction payload whose `resources` array already holds twenty
distinct links. -/
def c2raw : JSValue := .obj [("resources", .arr (c2urls.map .str))]

/-- The normalized resource list for `c2raw`. -/
def c2resources : List ResourceLink :=
  ((normalizeExtraction parseNone c2raw sampleSource).map
    (fun e => e.resources)).getD []

/-- A bare prose payload (no JSON anywhere). -/
def proseRaw : JSValue := .str "Some prose with no JSON."

/-- The extraction `normalizeExtraction` produces for `proseRaw` (the
text-only path applied to the prose itself). -/
def proseExtraction : StructuredExtraction :=
  { overview := "Some prose with no JSON."
    coreConcepts := []
    apis := []
    examples := []
    commonIssues := []
    bestPractices := []
    resources := [{ label := "Sample Docs", url := "https://example.com/docs",
                    note := "Seed source." }]
    rawText := "Some prose with no JSON." }

/-- The resource list a payload contributes on its own (before the source's
link is appended): the claim about which resource entry survives the dedup
is stated relative to this list. -/
def payloadResources (parse : String → Option JSValue) (raw : JSValue) :
    List ResourceLink :=
  match parseMaybeObject parse raw with
  | some parsed =>
    toResourceList (jsOr (getField parsed "resources") (getField parsed "links"))
  | none => []

/-- The validated topic of a run (`body.topic?.trim() ?? ""`). -/
def runTopic (inp : RunInput) : String := jsTrim (inp.topicField.getD "")

/-- The chunks the success path streams: one per guide section, each with
the `\n` the route appends. -/
def chunksOf (inp : RunInput) : List String :=
  ((buildGuideMarkdown (runTopic inp) (successesOf inp.scrapeResults)
    inp.generatedAt inp.fmt).sections).map (fun sec => sec ++ "\n")

/-- The trimmed accumulated guide of the success path. -/
def finalGuideOf (inp : RunInput) : String := jsTrim (String.join (chunksOf inp))

/-- The payloads of the `guide_chunk` events of a stream, in emission
order. -/
def chunkPayloads (events : List StreamEvent) : List String :=
  events.filterMap (fun e => match e with | .guideChunk c => some c | _ => none)

/-- The payload of a stream's last event, when that event is `complete`. -/
def lastComplete (events : List StreamEvent) :
    Option (String × List DiscoveredSource × GenerationStats) :=
  match events.getLast? with
  | some (.complete g srcs stats) => some (g, srcs, stats)
  | _ => none

/-- Is an event the run-level `error` event? -/
def isRunError : StreamEvent → Bool
  | .error _ => true
  | _ => false

/-- Is an event the run-level `complete` event? -/
def isRunComplete : StreamEvent → Bool
  | .complete _ _ _ => true
  | _ => false

/-- A successful scrape of `sampleSource` carrying `proseExtraction`. -/
def sampleSuccess : ScrapeSuccess :=
  { source := sampleSource
    extracted := proseExtraction
    wordCount := countWords proseExtraction.rawText }

/-- A concrete successful run: one source, one success. -/
def sampleRunInput : RunInput :=
  { topicField := some "Docker"
    hasApiKey := true
    discovered := [sampleSource]
    scrapeEvents :=
      [.sourceUpdate "docs-0-sample" .scraping
        (some "Launching TinyFish browser agent...") none,
       .sourceComplete "docs-0-sample" 5]
    scrapeResults := [.success sampleSuccess]
    generatedAt := "2026-01-01T00:00:00.000Z"
    fmt := fun _ => "1/1/2026, 12:00:00 AM" }

/-- A concrete fatal run: discovery produced no sources. -/
def fatalRunInput : RunInput :=
  { topicField := some "Docker"
    hasApiKey := true
    discovered := []
    scrapeEvents := []
    scrapeResults := []
    generatedAt := "2026-01-01T00:00:00.000Z"
    fmt := fun _ => "1/1/2026, 12:00:00 AM" }

/-- A TinyFish stream consisting of one bare completion event. -/
def tfCompleteFetch : TinyFishFetch := .stream [{ type := some "COMPLETE" }]

/-- An agent whose every task fails (no error message). -/
def failAgent : DiscoveredSource → TinyFishRunResult := fun _ => { success := false }

/-- A discovery environment whose search provider always throws, whose URL
parser always fails (so URLs pass through unchanged) and whose
`encodeURIComponent` is the identity (the sample topics below need no
escaping). -/
def noSearchEnv : DiscoveryEnv :=
  { search := fun _ => none
    urlParse := fun _ => none
    encodeURIComponent := fun s => s }

/-! ### General lemmas about the string and dedup primitives -/

/-- A list unchanged by `dropWhile` stays unchanged after dropping a suffix
(`rdropWhile`). -/
theorem dropWhile_rdropWhile_self (p : Char → Bool) (x : List Char)
    (hx : List.dropWhile p x = x) :
    List.dropWhile p (List.rdropWhile p x) = List.rdropWhile p x := by
  cases x with
  | nil => simp [List.rdropWhile]
  | cons a t =>
    have ha : ¬ p a = true := by
      intro hpa
      have h1 : List.dropWhile p (a :: t) = List.dropWhile p t :=
        List.dropWhile_cons_of_pos hpa
      have h2 : (List.dropWhile p t).length ≤ t.length :=
        List.Sublist.length_le (List.dropWhile_sublist p)
      rw [hx] at h1
      have := congrArg List.length h1
      simp at this
      omega
    have hpre : List.rdropWhile p (a :: t) <+: a :: t := List.rdropWhile_prefix p _
    cases hr : List.rdropWhile p (a :: t) with
    | nil => simp
    | cons b u =>
      rw [hr] at hpre
      have hb : b = a := (List.cons_prefix_cons.mp hpre).1
      subst hb
      simp [List.dropWhile_cons, ha]

/-- `trimChars` is idempotent (trimming a trimmed list changes nothing). -/
theorem trimChars_idem (l : List Char) : trimChars (trimChars l) = trimChars l := by
  unfold trimChars
  rw [dropWhile_rdropWhile_self isWs (List.dropWhile isWs l)
        (List.dropWhile_idempotent isWs l),
      List.rdropWhile_idempotent]

/-- `trim` is idempotent. -/
theorem jsTrim_idem (s : String) : jsTrim (jsTrim s) = jsTrim s :=
  congrArg String.mk (trimChars_idem s.data)

/-- `countWords` ignores outer whitespace (it trims first). -/
theorem countWords_jsTrim (s : String) : countWords (jsTrim s) = countWords s := by
  unfold countWords
  rw [jsTrim_idem]


/-- `dedupCapGo` never grows the output beyond `max`, provided it starts
below `max`. -/
theorem dedupCapGo_length_le {α : Type} (key : α → String) (max : Nat) :
    ∀ (vs : List α) (seen : List String) (out : List α),
      out.length < max → (dedupCapGo key max vs seen out).1.length ≤ max
  | [], _, out, h => by
    simpa [dedupCapGo] using Nat.le_of_lt h
  | v :: rest, seen, out, h => by
    rw [dedupCapGo]
    by_cases hseen : seen.contains (key v) = true
    · rw [if_pos hseen]
      rw [if_neg (by omega : ¬ out.length ≥ max)]
      exact dedupCapGo_length_le key max rest seen out h
    · rw [if_neg hseen]
      by_cases hlen : (out ++ [v]).length ≥ max
      · rw [if_pos hlen]
        simp only [List.length_append, List.length_singleton]
        omega
      · rw [if_neg hlen]
        apply dedupCapGo_length_le
        simp only [List.length_append, List.length_singleton] at hlen ⊢
        omega

/-- Every output element of `dedupCapGo` is an initial element or an input
element. -/
theorem dedupCapGo_mem {α : Type} (key : α → String) (max : Nat) :
    ∀ (vs : List α) (seen : List String) (out : List α) (r : α),
      r ∈ (dedupCapGo key max vs seen out).1 → r ∈ out ∨ r ∈ vs
  | [], _, out, r, h => by
    simp [dedupCapGo] at h
    exact Or.inl h
  | v :: rest, seen, out, r, h => by
    rw [dedupCapGo] at h
    by_cases hseen : seen.contains (key v) = true
    · rw [if_pos hseen] at h
      by_cases hlen : out.length ≥ max
      · rw [if_pos hlen] at h
        exact Or.inl h
      · rw [if_neg hlen] at h
        rcases dedupCapGo_mem key max rest seen out r h with h' | h'
        · exact Or.inl h'
        · exact Or.inr (List.mem_cons_of_mem v h')
    · rw [if_neg hseen] at h
      by_cases hlen : (out ++ [v]).length ≥ max
      · rw [if_pos hlen] at h
        rcases List.mem_append.mp h with h' | h'
        · exact Or.inl h'
        · simp only [List.mem_singleton] at h'
          subst h'
          exact Or.inr (List.mem_cons_self r rest)
      · rw [if_neg hlen] at h
        rcases dedupCapGo_mem key max rest (key v :: seen) (out ++ [v]) r h with h' | h'
        · rcases List.mem_append.mp h' with h'' | h''
          · exact Or.inl h''
          · simp only [List.mem_singleton] at h''
            subst h''
            exact Or.inr (List.mem_cons_self r rest)
        · exact Or.inr (List.mem_cons_of_mem v h')

/-- Initial output elements survive `dedupCapGo`. -/
theorem dedupCapGo_mem_mono {α : Type} (key : α → String) (max : Nat) :
    ∀ (vs : List α) (seen : List String) (out : List α) (r : α),
      r ∈ out → r ∈ (dedupCapGo key max vs seen out).1
  | [], _, out, r, h => by simpa [dedupCapGo] using h
  | v :: rest, seen, out, r, h => by
    rw [dedupCapGo]
    by_cases hseen : seen.contains (key v) = true
    · rw [if_pos hseen]
      by_cases hlen : out.length ≥ max
      · rw [if_pos hlen]
        exact h
      · rw [if_neg hlen]
        exact dedupCapGo_mem_mono key max rest seen out r h
    · rw [if_neg hseen]
      by_cases hlen : (out ++ [v]).length ≥ max
      · rw [if_pos hlen]
        exact List.mem_append_left _ h
      · rw [if_neg hlen]
        exact dedupCapGo_mem_mono key max rest (key v :: seen) (out ++ [v]) r
          (List.mem_append_left _ h)

/-- Every key recorded as seen is witnessed by a kept output element (when
that held of the initial state). -/
theorem dedupCapGo_seen_witness {α : Type} (key : α → String) (max : Nat) :
    ∀ (vs : List α) (seen : List String) (out : List α),
      (∀ k ∈ seen, ∃ r ∈ out, key r = k) →
      ∀ k ∈ (dedupCapGo key max vs seen out).2,
        ∃ r ∈ (dedupCapGo key max vs seen out).1, key r = k
  | [], _, out, hinv, k, hk => by
    simp only [dedupCapGo] at hk ⊢
    exact hinv k hk
  | v :: rest, seen, out, hinv, k, hk => by
    rw [dedupCapGo] at hk ⊢
    by_cases hseen : seen.contains (key v) = true
    · rw [if_pos hseen] at hk ⊢
      by_cases hlen : out.length ≥ max
      · rw [if_pos hlen] at hk ⊢
        exact hinv k hk
      · rw [if_neg hlen] at hk ⊢
        exact dedupCapGo_seen_witness key max rest seen out hinv k hk
    · rw [if_neg hseen] at hk ⊢
      by_cases hlen : (out ++ [v]).length ≥ max
      · rw [if_pos hlen] at hk ⊢
        rcases List.mem_cons.mp hk with hk' | hk'
        · subst hk'
          exact ⟨v, List.mem_append_right _ (List.mem_singleton.mpr rfl), rfl⟩
        · obtain ⟨r, hr, hkey⟩ := hinv k hk'
          exact ⟨r, List.mem_append_left _ hr, hkey⟩
      · rw [if_neg hlen] at hk ⊢
        apply dedupCapGo_seen_witness key max rest (key v :: seen) (out ++ [v]) _ k hk
        intro k' hk'
        rcases List.mem_cons.mp hk' with hk'' | hk''
        · subst hk''
          exact ⟨v, List.mem_append_right _ (List.mem_singleton.mpr rfl), rfl⟩
        · obtain ⟨r, hr, hkey⟩ := hinv k' hk''
          exact ⟨r, List.mem_append_left _ hr, hkey⟩

/-- If the loop over `vs` stays below the cap, appending one more value
processes it from the final state of the shorter loop. -/
theorem dedupCapGo_append_one {α : Type} (key : α → String) (max : Nat) :
    ∀ (vs : List α) (seen : List String) (out : List α) (w : α),
      (dedupCapGo key max vs seen out).1.length < max →
      dedupCapGo key max (vs ++ [w]) seen out =
        (if (dedupCapGo key max vs seen out).2.contains (key w) then
          dedupCapGo key max vs seen out
        else
          ((dedupCapGo key max vs seen out).1 ++ [w],
           key w :: (dedupCapGo key max vs seen out).2))
  | [], seen, out, w, h => by
    simp only [dedupCapGo, List.nil_append] at h ⊢
    by_cases hseen : seen.contains (key w) = true <;> simp [hseen]
  | v :: rest, seen, out, w, h => by
    rw [dedupCapGo] at h
    rw [List.cons_append, dedupCapGo, dedupCapGo]
    by_cases hseen : seen.contains (key v) = true
    · rw [if_pos hseen] at h ⊢
      rw [if_pos hseen]
      by_cases hlen : out.length ≥ max
      · rw [if_pos hlen] at h
        have h' : out.length < max := h
        exact absurd h' (by omega)
      · rw [if_neg hlen] at h
        rw [if_neg hlen, if_neg hlen]
        exact dedupCapGo_append_one key max rest seen out w h
    · rw [if_neg hseen] at h ⊢
      rw [if_neg hseen]
      by_cases hlen : (out ++ [v]).length ≥ max
      · rw [if_pos hlen] at h
        have h' : (out ++ [v]).length < max := h
        exact absurd h' (by omega)
      · rw [if_neg hlen] at h
        rw [if_neg hlen, if_neg hlen]
        exact dedupCapGo_append_one key max rest (key v :: seen) (out ++ [v]) w h

/-- A value appended after a list that already contains its key (or whose
key was already seen) is never freshly kept: it can only appear in the
output by being an initial element or an element of the list itself. -/
theorem dedupCapGo_last_dup {α : Type} (key : α → String) (max : Nat) :
    ∀ (vs : List α) (seen : List String) (out : List α) (w : α),
      ((∃ x ∈ vs, key x = key w) ∨ key w ∈ seen) →
      w ∉ out → w ∉ vs →
      w ∉ (dedupCapGo key max (vs ++ [w]) seen out).1
  | [], seen, out, w, hdup, hout, _ => by
    have hseen : key w ∈ seen := by
      rcases hdup with ⟨x, hx, _⟩ | h
      · exact absurd hx (List.not_mem_nil x)
      · exact h
    simp only [List.nil_append, dedupCapGo]
    rw [if_pos (List.elem_iff.mpr hseen)]
    by_cases hlen : out.length ≥ max
    · rw [if_pos hlen]
      exact hout
    · rw [if_neg hlen]
      simpa [dedupCapGo] using hout
  | v :: rest, seen, out, w, hdup, hout, hvs => by
    have hkv : w ≠ v := fun h => hvs (h ▸ List.mem_cons_self v rest)
    have hrest : w ∉ rest := fun h => hvs (List.mem_cons_of_mem v h)
    rw [List.cons_append, dedupCapGo]
    by_cases hseen : seen.contains (key v) = true
    · rw [if_pos hseen]
      by_cases hlen : out.length ≥ max
      · rw [if_pos hlen]
        exact hout
      · rw [if_neg hlen]
        apply dedupCapGo_last_dup key max rest seen out w _ hout hrest
        rcases hdup with ⟨x, hx, hkey⟩ | h
        · rcases List.mem_cons.mp hx with hx' | hx'
          · subst hx'
            exact Or.inr (hkey ▸ List.elem_iff.mp hseen)
          · exact Or.inl ⟨x, hx', hkey⟩
        · exact Or.inr h
    · rw [if_neg hseen]
      have hout' : w ∉ out ++ [v] := by
        intro h
        rcases List.mem_append.mp h with h' | h'
        · exact hout h'
        · exact hkv (List.mem_singleton.mp h')
      by_cases hlen : (out ++ [v]).length ≥ max
      · rw [if_pos hlen]
        exact hout'
      · rw [if_neg hlen]
        apply dedupCapGo_last_dup key max rest (key v :: seen) (out ++ [v]) w _ hout' hrest
        rcases hdup with ⟨x, hx, hkey⟩ | h
        · rcases List.mem_cons.mp hx with hx' | hx'
          · subst hx'
            exact Or.inr (hkey ▸ List.mem_cons_self _ _)
          · exact Or.inl ⟨x, hx', hkey⟩
        · exact Or.inr (List.mem_cons_of_mem _ h)

/-- The output of `dedupCapGo` never shrinks. -/
theorem dedupCapGo_length_mono {α : Type} (key : α → String) (max : Nat) :
    ∀ (vs : List α) (seen : List String) (out : List α),
      out.length ≤ (dedupCapGo key max vs seen out).1.length
  | [], _, out => by simp [dedupCapGo]
  | v :: rest, seen, out => by
    rw [dedupCapGo]
    by_cases hseen : seen.contains (key v) = true
    · rw [if_pos hseen]
      by_cases hlen : out.length ≥ max
      · rw [if_pos hlen]
      · rw [if_neg hlen]
        exact dedupCapGo_length_mono key max rest seen out
    · rw [if_neg hseen]
      by_cases hlen : (out ++ [v]).length ≥ max
      · rw [if_pos hlen]
        simp
      · rw [if_neg hlen]
        calc out.length ≤ (out ++ [v]).length := by simp
          _ ≤ _ := dedupCapGo_length_mono key max rest (key v :: seen) (out ++ [v])

/-! ### C1 — totality of the extraction normalizer -/

/-- C1, counterexample: the claim says `normalizeExtraction(raw, source)`
never throws for **every** `raw`, `undefined` included.  It is false: for
`raw = undefined`, `parseMaybeObject` yields no object, `JSON.stringify(raw,
null, 2)` evaluates to `undefined`, and `deriveOverview(text)` then throws a
`TypeError` on `text.replace` — modelled here by the `none` result. -/
theorem normalizeExtraction_throws_on_undefined :
    normalizeExtraction parseNone JSValue.undefined sampleSource = none := rfl

/-- C1, amended: the normalizer is total (never throws and yields a
`StructuredExtraction`) for every input except `undefined` — in particular
for `null`, non-JSON strings, numbers, booleans, arrays and objects missing
every recognized key — for every `JSON.parse` behaviour and every source. -/
theorem normalizeExtraction_total_of_defined
    (parse : String → Option JSValue) (raw : JSValue) (source : DiscoveredSource)
    (h : isUndefined raw = false) :
    (normalizeExtraction parse raw source).isSome = true := by
  unfold normalizeExtraction
  cases hp : parseMaybeObject parse raw with
  | some parsed => simp
  | none => cases raw <;> simp_all [jsonStringify, isUndefined]

/-- Witness for `normalizeExtraction_total_of_defined` at `raw = null`. -/
theorem normalizeExtraction_total_of_defined_witness :
    isUndefined JSValue.null = false ∧
    (normalizeExtraction parseNone JSValue.null sampleSource).isSome = true :=
  ⟨by decide,
   normalizeExtraction_total_of_defined parseNone JSValue.null sampleSource (by decide)⟩

/-! ### C2 — the source's own link in the normalized resources -/

/-- C2, counterexample: when the payload itself contributes twenty distinct
resource URLs, the 20-cap of `uniqueResources` is reached before the
appended source link is processed, so the returned `resources` contains
**no** entry with the source's URL (in any letter case). -/
theorem normalizeExtraction_source_link_dropped :
    (normalizeExtraction parseNone c2raw sampleSource).isSome = true ∧
    c2resources.length = 20 ∧
    c2resources.all
      (fun r => !(strToLower r.url == strToLower sampleSource.url)) = true := by
  decide

/-- C2, amended: for every payload and source, the normalized `resources`
list has at most 20 entries; it contains an entry whose lowercase URL is the
lowercase source URL **provided** the payload's own (deduplicated, capped)
resource list stays below the 20-cap; and whenever the payload itself lists
a resource with the source's URL (case-insensitively), any kept entry with
that URL is one of the payload's entries — the appended source link loses
the dedup. -/
theorem normalizeExtraction_resources_spec
    (parse : String → Option JSValue) (raw : JSValue) (source : DiscoveredSource)
    (e : StructuredExtraction)
    (h : normalizeExtraction parse raw source = some e) :
    e.resources.length ≤ 20 ∧
    ((uniqueResources (payloadResources parse raw) 20).length < 20 →
      ∃ r ∈ e.resources, strToLower r.url = strToLower source.url) ∧
    (∀ r ∈ e.resources, strToLower r.url = strToLower source.url →
      (∃ x ∈ payloadResources parse raw, strToLower x.url = strToLower source.url) →
      r ∈ payloadResources parse raw) := by
  unfold normalizeExtraction at h
  unfold payloadResources
  cases hp : parseMaybeObject parse raw with
  | none =>
    rw [hp] at h
    dsimp only at h ⊢
    rcases Option.map_eq_some'.mp h with ⟨t, _, he⟩
    have hres : e.resources = [⟨source.title, source.url, source.reason⟩] := by
      rw [← he]
    refine ⟨?_, fun _ => ⟨⟨source.title, source.url, source.reason⟩,
      by rw [hres]; exact List.mem_singleton.mpr rfl, rfl⟩, ?_⟩
    · rw [hres]
      simp
    · intro r _ _ hex
      obtain ⟨x, hx, _⟩ := hex
      exact absurd hx (List.not_mem_nil x)
  | some parsed =>
    rw [hp] at h
    dsimp only at h ⊢
    set key : ResourceLink → String := fun r => strToLower r.url with hkeydef
    set P : List ResourceLink :=
      toResourceList (jsOr (getField parsed "resources") (getField parsed "links"))
      with hPdef
    set L : ResourceLink := ⟨source.title, source.url, source.reason⟩ with hLdef
    have hres : e.resources = (dedupCapGo key 20 (P ++ [L]) [] []).1 := by
      injection h with h
      rw [← h]
      rfl
    refine ⟨?_, ?_, ?_⟩
    · rw [hres]
      exact dedupCapGo_length_le key 20 (P ++ [L]) [] [] (by decide)
    · intro hlt
      have hlt' : (dedupCapGo key 20 P [] []).1.length < 20 := hlt
      have hgo := dedupCapGo_append_one key 20 P [] [] L hlt'
      by_cases hc : (dedupCapGo key 20 P [] []).2.contains (key L) = true
      · rw [if_pos hc] at hgo
        obtain ⟨r, hr, hkey⟩ := dedupCapGo_seen_witness key 20 P [] []
          (fun k hk => absurd hk (List.not_mem_nil k)) (key L) (List.elem_iff.mp hc)
        exact ⟨r, by rw [hres, hgo]; exact hr, hkey⟩
      · rw [if_neg hc] at hgo
        refine ⟨L, ?_, rfl⟩
        rw [hres, hgo]
        exact List.mem_append_right _ (List.mem_singleton.mpr rfl)
    · intro r hr hkey hex
      have hr' : r ∈ (dedupCapGo key 20 (P ++ [L]) [] []).1 := by
        rw [hres] at hr
        exact hr
      rcases dedupCapGo_mem key 20 (P ++ [L]) [] [] r hr' with h0 | h0
      · exact absurd h0 (List.not_mem_nil r)
      · rcases List.mem_append.mp h0 with hP | hL
        · exact hP
        · have hrL : r = L := List.mem_singleton.mp hL
          subst hrL
          by_cases hmem : L ∈ P
          · exact hmem
          · exfalso
            obtain ⟨x, hx, hxkey⟩ := hex
            exact dedupCapGo_last_dup key 20 P [] [] L
              (Or.inl ⟨x, hx, hxkey⟩) (List.not_mem_nil L) hmem hr'

/-- Witness for `normalizeExtraction_resources_spec` at a bare prose payload
(text-only path, singleton resource list). -/
theorem normalizeExtraction_resources_spec_witness :
    normalizeExtraction parseNone proseRaw sampleSource = some proseExtraction ∧
    (proseExtraction.resources.length ≤ 20 ∧
      ((uniqueResources (payloadResources parseNone proseRaw) 20).length < 20 →
        ∃ r ∈ proseExtraction.resources,
          strToLower r.url = strToLower sampleSource.url) ∧
      (∀ r ∈ proseExtraction.resources,
        strToLower r.url = strToLower sampleSource.url →
        (∃ x ∈ payloadResources parseNone proseRaw,
          strToLower x.url = strToLower sampleSource.url) →
        r ∈ payloadResources parseNone proseRaw)) :=
  ⟨by decide,
   normalizeExtraction_resources_spec parseNone proseRaw sampleSource
     proseExtraction (by decide)⟩

/-! ### C10 — a successful TinyFish run always carries a defined result -/

/-- `a ?? b` is defined whenever `b` is. -/
theorem jsCoalesce_defined (a b : JSValue) (h : isUndefined b = false) :
    isUndefined (jsCoalesce a b) = false := by
  cases a <;> simp [jsCoalesce, isUndefined] <;> exact h

/-- The read loop never reports success with an undefined result (the
completion fallback chain ends in `null`). -/
theorem runTinyFishLoop_success_defined :
    ∀ (events : List TinyFishEvent) (streamingUrl : Option String),
      (runTinyFishLoop events streamingUrl).success = true →
      isUndefined (runTinyFishLoop events streamingUrl).result = false
  | [], _, h => by simp [runTinyFishLoop] at h
  | e :: rest, streamingUrl, h => by
    rw [runTinyFishLoop] at h ⊢
    by_cases hc : isCompleteEvent e = true
    · rw [if_pos hc] at h ⊢
      exact jsCoalesce_defined _ _ (jsCoalesce_defined _ _
        (jsCoalesce_defined _ _ (jsCoalesce_defined _ _ rfl)))
    · rw [if_neg hc] at h ⊢
      by_cases hf : isFailureEvent e = true
      · rw [if_pos hf] at h
        simp at h
      · rw [if_neg hf] at h ⊢
        exact runTinyFishLoop_success_defined rest _ h

/-- C10: every `TinyFishRunResult` returned by `runTinyFishTask` with
`success = true` has a defined (non-`undefined`) `result` — the completion
fallback chain `resultJson ?? result ?? output ?? data` ends in `null`,
never `undefined`; consequently the orchestrator's failure branch testing
`!runResult.success || runResult.result === undefined` can only be entered
with `success = false`. -/
theorem runTinyFishTask_success_result_defined (input : TinyFishFetch) :
    ((runTinyFishTask input).success = true →
      isUndefined (runTinyFishTask input).result = false) ∧
    ((!(runTinyFishTask input).success ||
        isUndefined (runTinyFishTask input).result) = true →
      (runTinyFishTask input).success = false) := by
  have hmain : (runTinyFishTask input).success = true →
      isUndefined (runTinyFishTask input).result = false := by
    cases input with
    | thrown message => intro h; simp [runTinyFishTask] at h
    | notOk status text => intro h; simp [runTinyFishTask] at h
    | noBody => intro h; simp [runTinyFishTask] at h
    | stream events => exact runTinyFishLoop_success_defined events none
  refine ⟨hmain, ?_⟩
  intro hguard
  by_cases hs : (runTinyFishTask input).success = true
  · rw [hs] at hguard
    simp at hguard
    rw [hmain hs] at hguard
    exact absurd hguard (by simp)
  · exact Bool.not_eq_true _ ▸ hs

/-- Witness for `runTinyFishTask_success_result_defined` on a stream with
one completion event. -/
theorem runTinyFishTask_success_result_defined_witness :
    (runTinyFishTask tfCompleteFetch).success = true ∧
    isUndefined (runTinyFishTask tfCompleteFetch).result = false :=
  ⟨by decide, (runTinyFishTask_success_result_defined tfCompleteFetch).1 (by decide)⟩

/-! ### C4 — one outcome per source, input order preserved -/

/-- `scrapeOne` always yields exactly one outcome, and that outcome is for
the given source. -/
theorem scrapeOne_spec (parse : String → Option JSValue)
    (source : DiscoveredSource) (rr : TinyFishRunResult) :
    ∃ r, scrapeOne parse source rr = some r ∧ r.source = source := by
  unfold scrapeOne
  by_cases hc : (!rr.success || isUndefined rr.result) = true
  · rw [if_pos hc]
    exact ⟨_, rfl, rfl⟩
  · rw [if_neg hc]
    have hu : isUndefined rr.result = false := by
      have hc' : (!rr.success || isUndefined rr.result) = false :=
        Bool.not_eq_true _ |>.symm ▸ Bool.eq_false_iff.mpr hc
      rcases Bool.or_eq_false_iff.mp hc' with ⟨_, hu⟩
      exact hu
    obtain ⟨e, he⟩ := Option.isSome_iff_exists.mp
      (normalizeExtraction_total_of_defined parse rr.result source hu)
    rw [he]
    exact ⟨_, rfl, rfl⟩

/-- C4: the orchestration step returns exactly one outcome per source — the
outcome list has the same length as the input list, and the outcome at
index `i` is for the source at index `i` (`Promise.all` resolves
positionally, so this holds regardless of completion order; no single
source's failure removes or reorders sibling outcomes). -/
theorem scrapeAll_one_outcome_per_source (parse : String → Option JSValue)
    (sources : List DiscoveredSource)
    (agent : DiscoveredSource → TinyFishRunResult) :
    (scrapeAll parse sources agent).length = sources.length ∧
    ∀ i, i < sources.length →
      ∃ src r, sources[i]? = some src ∧
        (scrapeAll parse sources agent)[i]? = some (some r) ∧
        r.source = src := by
  constructor
  · exact List.length_map sources _
  · intro i hi
    have hsrc : sources[i]? = some sources[i] := List.getElem?_eq_getElem hi
    obtain ⟨r, hr, hrsource⟩ := scrapeOne_spec parse sources[i] (agent sources[i])
    refine ⟨sources[i], r, hsrc, ?_, hrsource⟩
    rw [scrapeAll, List.getElem?_map, hsrc, Option.map_some', hr]

/-- Witness for `scrapeAll_one_outcome_per_source` on a one-source list and
an always-failing agent. -/
theorem scrapeAll_one_outcome_per_source_witness :
    0 < [sampleSource].length ∧
    ∃ src r, [sampleSource][0]? = some src ∧
      (scrapeAll parseNone [sampleSource] failAgent)[0]? = some (some r) ∧
      r.source = src :=
  ⟨by decide,
   (scrapeAll_one_outcome_per_source parseNone [sampleSource] failAgent).2 0 (by decide)⟩

/-! ### C8 — the synthesizer is deterministic modulo the clock -/

/-- C8: `buildGuideMarkdown` is a pure function of `(topic, results, now,
fmt)` — two evaluations with the same inputs and the same clock value give
identical section lists — and the clock only enters through the header's
`Generated:` line: the five body sections are identical for any two clock
values, and the header section is a fixed prefix, then the formatted
timestamp, then a fixed suffix. -/
theorem buildGuideMarkdown_deterministic (topic : String)
    (results : List ScrapeSuccess) (fmt : String → String) (now1 now2 : String) :
    buildGuideMarkdown topic results now1 fmt =
      buildGuideMarkdown topic results now1 fmt ∧
    (buildGuideMarkdown topic results now1 fmt).sections.tail =
      (buildGuideMarkdown topic results now2 fmt).sections.tail ∧
    (∀ now, (buildGuideMarkdown topic results now fmt).sections.head? =
      some ("# " ++ topic ++ " Skill Guide\n\nGenerated: " ++ (fmt now ++
        ("\nSources scraped successfully: " ++ (toString results.length ++
          ("\n" ++ "\n")))))) := by
  refine ⟨rfl, rfl, ?_⟩
  intro now
  show some _ = some _
  congr 1
  simp [String.append_assoc]

/-! ### Structure of the run event stream -/

/-- Stripping a common prefix from both arguments of `charsLead`. -/
theorem charsLead_append_both :
    ∀ (x y z : List Char), charsLead (x ++ y) (x ++ z) = charsLead y z
  | [], _, _ => rfl
  | c :: x, y, z => by
    simp only [List.cons_append, charsLead]
    rw [show x.append y = x ++ y from rfl, show x.append z = x ++ z from rfl,
        charsLead_append_both x y z]
    simp

/-- `charsLead` only looks at a prefix: it survives appending on the
right. -/
theorem charsLead_mono :
    ∀ (p a b : List Char), charsLead a p = true → charsLead (a ++ b) p = true
  | [], a, b, _ => by cases a ++ b <;> rfl
  | _ :: _, [], _, h => by simp [charsLead] at h
  | q :: p, a' :: a, b, h => by
    simp only [charsLead, Bool.and_eq_true] at h
    simp only [List.cons_append, charsLead, Bool.and_eq_true]
    exact ⟨h.1, charsLead_mono p a b h.2⟩

/-- A string with `"\n"` appended is never empty. -/
theorem append_nl_ne_empty (s : String) : s ++ "\n" ≠ "" := by
  intro h
  have h' : (s ++ "\n").data = ("" : String).data := congrArg String.data h
  rw [String.data_append] at h'
  have h'' : s.data ++ ['\n'] = [] := h'
  simp at h''

/-- The event stream of a run that passes validation, discovers at least
one source and scrapes at least one success: the success path of the
handler. -/
theorem runEvents_success_eq (inp : RunInput)
    (ht : (runTopic inp).isEmpty = false)
    (hk : inp.hasApiKey = true)
    (hd : ¬ inp.discovered.length = 0)
    (hs : ¬ (successesOf inp.scrapeResults).length = 0) :
    runEvents inp =
      ([.phase .discovering
          "Discovering relevant docs, GitHub, Stack Overflow, and blog sources...",
        .discoveryComplete inp.discovered,
        .phase .scraping
          ("Scraping " ++ toString inp.discovered.length ++
           " sources in parallel with TinyFish...")] ++
       inp.scrapeEvents ++
       [.phase .synthesizing "Synthesizing a single markdown skill guide..."] ++
       (chunksOf inp).map .guideChunk ++
       [.phase .complete "Guide generation complete."]) ++
      [.complete (finalGuideOf inp) inp.discovered
        { sourceCount := inp.discovered.length
          successCount := (successesOf inp.scrapeResults).length
          generatedWords := countWords (finalGuideOf inp) }] := by
  have ht' : (jsTrim (inp.topicField.getD "")).isEmpty = false := ht
  simp [runEvents, ht', hk, hd, hs, chunksOf, finalGuideOf, runTopic]

/-- The event stream of a run whose discovery yields zero sources. -/
theorem runEvents_nodiscovery_eq (inp : RunInput)
    (ht : (runTopic inp).isEmpty = false)
    (hk : inp.hasApiKey = true)
    (hd : inp.discovered.length = 0) :
    runEvents inp =
      [.phase .discovering
         "Discovering relevant docs, GitHub, Stack Overflow, and blog sources...",
       .phase .error "No sources were discovered for this topic."] ++
      [.error "No sources were discovered for this topic."] := by
  have ht' : (jsTrim (inp.topicField.getD "")).isEmpty = false := ht
  simp [runEvents, ht', hk, hd]

/-- The event stream of a run all of whose scrapes failed. -/
theorem runEvents_nosuccess_eq (inp : RunInput)
    (ht : (runTopic inp).isEmpty = false)
    (hk : inp.hasApiKey = true)
    (hd : ¬ inp.discovered.length = 0)
    (hs : (successesOf inp.scrapeResults).length = 0) :
    runEvents inp =
      ([.phase .discovering
          "Discovering relevant docs, GitHub, Stack Overflow, and blog sources...",
        .discoveryComplete inp.discovered,
        .phase .scraping
          ("Scraping " ++ toString inp.discovered.length ++
           " sources in parallel with TinyFish...")] ++
       inp.scrapeEvents ++
       [.phase .error "Scraping finished, but no source returned usable content."]) ++
      [.error "Scraping finished, but no source returned usable content."] := by
  have ht' : (jsTrim (inp.topicField.getD "")).isEmpty = false := ht
  simp [runEvents, ht', hk, hd, hs]

/-- `chunkPayloads` distributes over appended streams. -/
theorem chunkPayloads_append (l1 l2 : List StreamEvent) :
    chunkPayloads (l1 ++ l2) = chunkPayloads l1 ++ chunkPayloads l2 :=
  List.filterMap_append l1 l2 _

/-- `chunkPayloads` recovers the payloads of a pure chunk stream. -/
theorem chunkPayloads_map (l : List String) :
    chunkPayloads (l.map StreamEvent.guideChunk) = l := by
  induction l with
  | nil => rfl
  | cons a l ih =>
    simp only [List.map_cons, chunkPayloads, List.filterMap_cons] at ih ⊢
    rw [ih]

/-- On the success path the `guide_chunk` payloads are exactly the guide's
sections with their appended newlines (the per-source progress events
contribute none, whatever their interleaving). -/
theorem chunkPayloads_runEvents (inp : RunInput)
    (ht : (runTopic inp).isEmpty = false)
    (hk : inp.hasApiKey = true)
    (hd : ¬ inp.discovered.length = 0)
    (hs : ¬ (successesOf inp.scrapeResults).length = 0)
    (hprog : ∀ e ∈ inp.scrapeEvents, isProgressEvent e = true) :
    chunkPayloads (runEvents inp) = chunksOf inp := by
  rw [runEvents_success_eq inp ht hk hd hs]
  have hscrape : chunkPayloads inp.scrapeEvents = [] := by
    apply List.filterMap_eq_nil_iff.mpr
    intro e he
    have := hprog e he
    cases e <;> simp_all [isProgressEvent]
  rw [chunkPayloads_append, chunkPayloads_append, chunkPayloads_append,
      chunkPayloads_append, chunkPayloads_append, hscrape, chunkPayloads_map]
  show ((([] : List String) ++ [] ++ [] ++ chunksOf inp ++ []) ++ [] :
    List String) = chunksOf inp
  simp

/-- `lastComplete` of a stream ending in a `complete` event. -/
theorem lastComplete_concat (l : List StreamEvent) (g : String)
    (srcs : List DiscoveredSource) (stats : GenerationStats) :
    lastComplete (l ++ [.complete g srcs stats]) = some (g, srcs, stats) := by
  unfold lastComplete
  rw [List.getLast?_concat]

/-! ### C3 — `generatedWords` versus the streamed chunks -/

set_option maxHeartbeats 1000000


/-- C3: in every successful run (non-empty topic, API key present, at least
one source discovered, at least one scrape success, and whatever
interleaving of per-source progress events), the final event is `complete`,
and its `generatedWords` equals the whitespace-token count of the trimmed
concatenation of all `guide_chunk` payloads, which also equals the word
count of the `guide` field of the same `complete` event. -/
theorem generatedWords_eq_chunk_words (inp : RunInput)
    (ht : (runTopic inp).isEmpty = false)
    (hk : inp.hasApiKey = true)
    (hd : ¬ inp.discovered.length = 0)
    (hs : ¬ (successesOf inp.scrapeResults).length = 0)
    (hprog : ∀ e ∈ inp.scrapeEvents, isProgressEvent e = true) :
    ∃ g srcs stats, lastComplete (runEvents inp) = some (g, srcs, stats) ∧
      stats.generatedWords =
        countWords (String.join (chunkPayloads (runEvents inp))) ∧
      stats.generatedWords = countWords g := by
  refine ⟨finalGuideOf inp, inp.discovered,
    { sourceCount := inp.discovered.length
      successCount := (successesOf inp.scrapeResults).length
      generatedWords := countWords (finalGuideOf inp) }, ?_, ?_, ?_⟩
  · rewrite [runEvents_success_eq inp ht hk hd hs, lastComplete_concat]
    with_reducible rfl
  · rewrite [chunkPayloads_runEvents inp ht hk hd hs hprog]
    dsimp only
    unfold finalGuideOf
    exact countWords_jsTrim _
  · dsimp only

/-- Witness for `generatedWords_eq_chunk_words` on the concrete
one-source, one-success run. -/
theorem generatedWords_eq_chunk_words_witness :
    ((runTopic sampleRunInput).isEmpty = false ∧
      sampleRunInput.hasApiKey = true ∧
      ¬ sampleRunInput.discovered.length = 0 ∧
      ¬ (successesOf sampleRunInput.scrapeResults).length = 0 ∧
      ∀ e ∈ sampleRunInput.scrapeEvents, isProgressEvent e = true) ∧
    ∃ g srcs stats, lastComplete (runEvents sampleRunInput) = some (g, srcs, stats) ∧
      stats.generatedWords =
        countWords (String.join (chunkPayloads (runEvents sampleRunInput))) ∧
      stats.generatedWords = countWords g :=
  ⟨⟨by decide, by decide, by decide, by decide, by decide⟩,
   generatedWords_eq_chunk_words sampleRunInput (by decide) (by decide)
     (by decide) (by decide) (by decide)⟩

/-! ### C6 — the chunk concatenation versus the final guide -/

set_option maxRecDepth 8000


/-- C6, counterexample: the concatenation of the `guide_chunk` payloads is
**not** equal to the `guide` carried by the `complete` event — each chunk
ends in the newline the route appends, so the concatenation carries trailing
newlines that the trimmed `guide` lacks. -/
theorem chunk_concat_differs_from_guide :
    (lastComplete (runEvents sampleRunInput)).isSome = true ∧
    (lastComplete (runEvents sampleRunInput)).map (fun t => t.1) ≠
      some (String.join (chunkPayloads (runEvents sampleRunInput))) := by
  decide

/-- C6, amended: in every successful run, the **trimmed** concatenation (in
emission order) of the `guide_chunk` payloads equals the `guide` field of
the run's `complete` event. -/
theorem trimmed_chunk_concat_is_guide (inp : RunInput)
    (ht : (runTopic inp).isEmpty = false)
    (hk : inp.hasApiKey = true)
    (hd : ¬ inp.discovered.length = 0)
    (hs : ¬ (successesOf inp.scrapeResults).length = 0)
    (hprog : ∀ e ∈ inp.scrapeEvents, isProgressEvent e = true) :
    ∃ g srcs stats, lastComplete (runEvents inp) = some (g, srcs, stats) ∧
      jsTrim (String.join (chunkPayloads (runEvents inp))) = g := by
  refine ⟨finalGuideOf inp, inp.discovered,
    { sourceCount := inp.discovered.length
      successCount := (successesOf inp.scrapeResults).length
      generatedWords := countWords (finalGuideOf inp) }, ?_, ?_⟩
  · rewrite [runEvents_success_eq inp ht hk hd hs, lastComplete_concat]
    with_reducible rfl
  · rewrite [chunkPayloads_runEvents inp ht hk hd hs hprog]
    unfold finalGuideOf
    with_reducible rfl

/-- Witness for `trimmed_chunk_concat_is_guide` on the concrete run. -/
theorem trimmed_chunk_concat_is_guide_witness :
    ((runTopic sampleRunInput).isEmpty = false ∧
      ∀ e ∈ sampleRunInput.scrapeEvents, isProgressEvent e = true) ∧
    ∃ g srcs stats,
      lastComplete (runEvents sampleRunInput) = some (g, srcs, stats) ∧
      jsTrim (String.join (chunkPayloads (runEvents sampleRunInput))) = g :=
  ⟨⟨by decide, by decide⟩,
   trimmed_chunk_concat_is_guide sampleRunInput (by decide) (by decide)
     (by decide) (by decide) (by decide)⟩

/-! ### C9 — exactly six chunks, fixed order, all non-empty -/

/-- C9: every successful run emits exactly six `guide_chunk` events — one
per section, in the fixed order header, Overview, Core Concepts, Practical
Examples, Common Gotchas, Resources — and each chunk is a non-empty string;
the spec's "zero or more" chunks is in fact always exactly six. -/
theorem six_section_chunks (inp : RunInput)
    (ht : (runTopic inp).isEmpty = false)
    (hk : inp.hasApiKey = true)
    (hd : ¬ inp.discovered.length = 0)
    (hs : ¬ (successesOf inp.scrapeResults).length = 0)
    (hprog : ∀ e ∈ inp.scrapeEvents, isProgressEvent e = true) :
    ∃ c0 c1 c2 c3 c4 c5,
      chunkPayloads (runEvents inp) = [c0, c1, c2, c3, c4, c5] ∧
      (c0 ≠ "" ∧ c1 ≠ "" ∧ c2 ≠ "" ∧ c3 ≠ "" ∧ c4 ≠ "" ∧ c5 ≠ "") ∧
      strStartsWith c0 ("# " ++ runTopic inp ++ " Skill Guide") = true ∧
      strStartsWith c1 "## Overview" = true ∧
      strStartsWith c2 "## Core Concepts" = true ∧
      strStartsWith c3 "## Practical Examples" = true ∧
      strStartsWith c4 "## Common Gotchas" = true ∧
      strStartsWith c5 "## Resources" = true := by
  rewrite [chunkPayloads_runEvents inp ht hk hd hs hprog]
  simp only [chunksOf, buildGuideMarkdown, List.map_cons, List.map_nil]
  refine ⟨_, _, _, _, _, _, rfl,
    ⟨append_nl_ne_empty _, append_nl_ne_empty _, append_nl_ne_empty _,
     append_nl_ne_empty _, append_nl_ne_empty _, append_nl_ne_empty _⟩,
    ?_, ?_, ?_, ?_, ?_, ?_⟩
  · simp only [strStartsWith, String.data_append, List.append_assoc]
    rw [charsLead_append_both, charsLead_append_both]
    exact charsLead_mono _ _ _ (by decide)
  · simp only [strStartsWith, String.data_append, List.append_assoc]
    exact charsLead_mono _ _ _ (by decide)
  · simp only [strStartsWith, String.data_append, List.append_assoc]
    exact charsLead_mono _ _ _ (by decide)
  · simp only [strStartsWith, String.data_append, List.append_assoc]
    exact charsLead_mono _ _ _ (by decide)
  · simp only [strStartsWith, String.data_append, List.append_assoc]
    exact charsLead_mono _ _ _ (by decide)
  · simp only [strStartsWith, String.data_append, List.append_assoc]
    exact charsLead_mono _ _ _ (by decide)

/-- Witness for `six_section_chunks` on the concrete run. -/
theorem six_section_chunks_witness :
    ((runTopic sampleRunInput).isEmpty = false ∧
      ∀ e ∈ sampleRunInput.scrapeEvents, isProgressEvent e = true) ∧
    ∃ c0 c1 c2 c3 c4 c5,
      chunkPayloads (runEvents sampleRunInput) = [c0, c1, c2, c3, c4, c5] ∧
      (c0 ≠ "" ∧ c1 ≠ "" ∧ c2 ≠ "" ∧ c3 ≠ "" ∧ c4 ≠ "" ∧ c5 ≠ "") ∧
      strStartsWith c0 ("# " ++ runTopic sampleRunInput ++ " Skill Guide") = true ∧
      strStartsWith c1 "## Overview" = true ∧
      strStartsWith c2 "## Core Concepts" = true ∧
      strStartsWith c3 "## Practical Examples" = true ∧
      strStartsWith c4 "## Common Gotchas" = true ∧
      strStartsWith c5 "## Resources" = true :=
  ⟨⟨by decide, by decide⟩,
   six_section_chunks sampleRunInput (by decide) (by decide) (by decide)
     (by decide) (by decide)⟩

/-! ### C7 — fatal errors and terminal exclusivity -/

/-- Any run's stream either carries no run-level `error` event or no
run-level `complete` event (for every interleaving of per-source progress
events). -/
theorem runEvents_split (inp : RunInput)
    (hprog : ∀ e ∈ inp.scrapeEvents, isProgressEvent e = true) :
    (∀ e ∈ runEvents inp, isRunError e = false) ∨
    (∀ e ∈ runEvents inp, isRunComplete e = false) := by
  by_cases ht : (runTopic inp).isEmpty = true
  · right
    intro e he
    have ht' : (jsTrim (inp.topicField.getD "")).isEmpty = true := ht
    simp [runEvents, ht'] at he
    rw [he]
    rfl
  · have ht' : (runTopic inp).isEmpty = false := Bool.eq_false_iff.mpr ht
    by_cases hkb : inp.hasApiKey = true
    · by_cases hd : inp.discovered.length = 0
      · right
        intro e he
        rw [runEvents_nodiscovery_eq inp ht' hkb hd] at he
        simp at he
        rcases he with rfl | rfl | rfl <;> rfl
      · by_cases hsc : (successesOf inp.scrapeResults).length = 0
        · right
          intro e he
          rw [runEvents_nosuccess_eq inp ht' hkb hd hsc] at he
          simp at he
          rcases he with rfl | rfl | rfl | hmem | rfl | rfl
          · rfl
          · rfl
          · rfl
          · have := hprog e hmem
            cases e <;> simp_all [isProgressEvent, isRunComplete]
          · rfl
          · rfl
        · left
          intro e he
          rw [runEvents_success_eq inp ht' hkb hd hsc] at he
          simp at he
          rcases he with rfl | rfl | rfl | hmem | rfl | hchunk | rfl | rfl
          · rfl
          · rfl
          · rfl
          · have := hprog e hmem
            cases e <;> simp_all [isProgressEvent, isRunError]
          · rfl
          · obtain ⟨a, _, rfl⟩ := hchunk
            rfl
          · rfl
          · rfl
    · right
      intro e he
      have hk' : inp.hasApiKey = false := Bool.eq_false_iff.mpr hkb
      have ht'' : (jsTrim (inp.topicField.getD "")).isEmpty = false := ht'
      simp [runEvents, ht'', hk'] at he
      rw [he]
      rfl

/-- C7: a run that takes the fatal-error path (valid topic and key, then
zero discovered sources or zero scrape successes) emits a `phase` event
with phase `error` **and** ends with a final `error` event carrying the same
message; and in no run — fatal or not, under any interleaving of per-source
progress events — does a `complete` event follow an `error` event. -/
theorem error_terminal_and_exclusive (inp : RunInput)
    (hprog : ∀ e ∈ inp.scrapeEvents, isProgressEvent e = true) :
    ((runTopic inp).isEmpty = false → inp.hasApiKey = true →
      (inp.discovered.length = 0 ∨ (successesOf inp.scrapeResults).length = 0) →
      ∃ m, StreamEvent.phase .error m ∈ runEvents inp ∧
        (runEvents inp).getLast? = some (.error m)) ∧
    (∀ (i j : Nat) (ei ej : StreamEvent), i < j →
      (runEvents inp)[i]? = some ei → (runEvents inp)[j]? = some ej →
      isRunError ei = true → isRunComplete ej = false) := by
  constructor
  · intro ht hk hfat
    by_cases hd : inp.discovered.length = 0
    · refine ⟨"No sources were discovered for this topic.", ?_, ?_⟩
      · rw [runEvents_nodiscovery_eq inp ht hk hd]
        simp
      · rw [runEvents_nodiscovery_eq inp ht hk hd, List.getLast?_concat]
    · have hs : (successesOf inp.scrapeResults).length = 0 := by
        rcases hfat with h | h
        · exact absurd h hd
        · exact h
      refine ⟨"Scraping finished, but no source returned usable content.", ?_, ?_⟩
      · rw [runEvents_nosuccess_eq inp ht hk hd hs]
        simp
      · rw [runEvents_nosuccess_eq inp ht hk hd hs, List.getLast?_concat]
  · intro i j ei ej _ hi hj herr
    rcases runEvents_split inp hprog with hno | hno
    · rw [hno ei (List.getElem?_mem hi)] at herr
      exact absurd herr (by simp)
    · exact hno ej (List.getElem?_mem hj)

/-- Witness for `error_terminal_and_exclusive` on the concrete
zero-discovery run. -/
theorem error_terminal_and_exclusive_witness :
    (∀ e ∈ fatalRunInput.scrapeEvents, isProgressEvent e = true) ∧
    ((runTopic fatalRunInput).isEmpty = false ∧
      fatalRunInput.hasApiKey = true ∧ fatalRunInput.discovered.length = 0) ∧
    ∃ m, StreamEvent.phase .error m ∈ runEvents fatalRunInput ∧
      (runEvents fatalRunInput).getLast? = some (.error m) :=
  ⟨by decide, ⟨by decide, by decide, by decide⟩,
   (error_terminal_and_exclusive fatalRunInput (by decide)).1 (by decide)
     (by decide) (Or.inl (by decide))⟩

/-! ### C5 — discovery bounds -/

/-- `pickLoop` pushes to `selected` and `seen` together: the two grow by the
same amount. -/
theorem pickLoop_balanced (env : DiscoveryEnv) (type : SourceType)
    (query : String) (maxPerType : Nat) :
    ∀ (ranked : List (SearchResult × Nat)) (sel : List DiscoveredSource)
      (seen : List String),
      (pickLoop env type query maxPerType ranked sel seen).1.length + seen.length =
      (pickLoop env type query maxPerType ranked sel seen).2.length + sel.length
  | [], _, _ => by simp [pickLoop]; omega
  | entry :: rest, sel, seen => by
    rw [pickLoop]
    by_cases hlen : sel.length ≥ maxPerType
    · rw [if_pos hlen]
      dsimp only
      omega
    · rw [if_neg hlen]
      by_cases hseen : seen.contains (normalizeUrl env entry.1.url) = true
      · rw [if_pos hseen]
        exact pickLoop_balanced env type query maxPerType rest sel seen
      · rw [if_neg hseen]
        have h := pickLoop_balanced env type query maxPerType rest
          (sel ++ [pickedSource env type query entry sel.length])
          (normalizeUrl env entry.1.url :: seen)
        simp only [List.length_append, List.length_singleton, List.length_cons,
          List.length_nil] at h
        omega

/-- `pickLoop` never drops selected sources. -/
theorem pickLoop_grow (env : DiscoveryEnv) (type : SourceType)
    (query : String) (maxPerType : Nat) :
    ∀ (ranked : List (SearchResult × Nat)) (sel : List DiscoveredSource)
      (seen : List String),
      sel.length ≤ (pickLoop env type query maxPerType ranked sel seen).1.length
  | [], _, _ => by simp [pickLoop]
  | entry :: rest, sel, seen => by
    rw [pickLoop]
    by_cases hlen : sel.length ≥ maxPerType
    · rw [if_pos hlen]
    · rw [if_neg hlen]
      by_cases hseen : seen.contains (normalizeUrl env entry.1.url) = true
      · rw [if_pos hseen]
        exact pickLoop_grow env type query maxPerType rest sel seen
      · rw [if_neg hseen]
        refine le_trans ?_ (pickLoop_grow env type query maxPerType rest _ _)
        simp

/-- The query loop inherits both properties. -/
theorem queryLoop_balanced (env : DiscoveryEnv) (type : SourceType)
    (topicTokens : List String) (maxPerType : Nat) :
    ∀ (queries : List String) (sel : List DiscoveredSource) (seen : List String),
      (queryLoop env type topicTokens maxPerType queries sel seen).1.length + seen.length =
      (queryLoop env type topicTokens maxPerType queries sel seen).2.length + sel.length
  | [], _, _ => by simp [queryLoop]; omega
  | query :: rest, sel, seen => by
    rw [queryLoop]
    cases hsearch : env.search query with
    | none => exact queryLoop_balanced env type topicTokens maxPerType rest sel seen
    | some results =>
      dsimp only
      have h1 := pickLoop_balanced env type query maxPerType
        (rankedResults type topicTokens results) sel seen
      have h2 := queryLoop_balanced env type topicTokens maxPerType rest
        (pickLoop env type query maxPerType
          (rankedResults type topicTokens results) sel seen).1
        (pickLoop env type query maxPerType
          (rankedResults type topicTokens results) sel seen).2
      omega

/-- The query loop never drops selected sources. -/
theorem queryLoop_grow (env : DiscoveryEnv) (type : SourceType)
    (topicTokens : List String) (maxPerType : Nat) :
    ∀ (queries : List String) (sel : List DiscoveredSource) (seen : List String),
      sel.length ≤ (queryLoop env type topicTokens maxPerType queries sel seen).1.length
  | [], _, _ => by simp [queryLoop]
  | query :: rest, sel, seen => by
    rw [queryLoop]
    cases hsearch : env.search query with
    | none => exact queryLoop_grow env type topicTokens maxPerType rest sel seen
    | some results =>
      exact le_trans
        (pickLoop_grow env type query maxPerType _ sel seen)
        (queryLoop_grow env type topicTokens maxPerType rest _ _)

/-- The fallback loop never drops selected sources. -/
theorem fallbackLoop_grow (maxPerType : Nat) :
    ∀ (fallbacks selected : List DiscoveredSource) (seen : List String),
      selected.length ≤ (fallbackLoop maxPerType fallbacks selected seen).length
  | [], _, _ => by simp [fallbackLoop]
  | fallback :: rest, selected, seen => by
    rw [fallbackLoop]
    by_cases hseen : seen.contains fallback.url = true
    · rw [if_pos hseen]
      by_cases hlen : selected.length ≥ maxPerType
      · rw [if_pos hlen]
      · rw [if_neg hlen]
        exact fallbackLoop_grow maxPerType rest selected seen
    · rw [if_neg hseen]
      by_cases hlen : (selected ++ [fallback]).length ≥ maxPerType
      · rw [if_pos hlen]
        simp
      · rw [if_neg hlen]
        refine le_trans ?_ (fallbackLoop_grow maxPerType rest _ _)
        simp

/-- The cross-type dedup never grows the list. -/
theorem dedupByUrl_length_le :
    ∀ (l : List DiscoveredSource) (seen : List String),
      (dedupByUrl l seen).length ≤ l.length
  | [], _ => by simp [dedupByUrl]
  | s :: rest, seen => by
    rw [dedupByUrl]
    by_cases hseen : seen.contains s.url = true
    · rw [if_pos hseen]
      exact le_trans (dedupByUrl_length_le rest seen) (Nat.le_succ _)
    · rw [if_neg hseen]
      simpa using dedupByUrl_length_le rest (s.url :: seen)

/-- Each fallback list is non-empty. -/
theorem defaultFallbacks_ne_nil (env : DiscoveryEnv) (topic : String)
    (type : SourceType) : (defaultFallbacks env topic type).length = 3 := by
  cases type <;> rfl

/-- Per category, discovery returns at most the per-category quota. -/
theorem discoverByType_length_le (env : DiscoveryEnv) (topic : String)
    (type : SourceType) (maxPerType : Nat) :
    (discoverByType env topic type maxPerType).length ≤ maxPerType := by
  simp only [discoverByType]
  exact le_trans (Nat.le_of_eq (List.length_take _ _)) (Nat.min_le_left _ _)

/-- Per category, discovery returns at least one source whenever the quota
is positive: a failing provider is made up for by the synthetic fallback
sources. -/
theorem discoverByType_length_ge (env : DiscoveryEnv) (topic : String)
    (type : SourceType) (maxPerType : Nat) (hq : 1 ≤ maxPerType) :
    1 ≤ (discoverByType env topic type maxPerType).length := by
  simp only [discoverByType, List.length_take]
  refine le_min hq ?_
  set organic := queryLoop env type (tokenizeTopic topic) maxPerType
    ((SOURCE_QUERIES type).map (fun template => template.replace "{topic}" topic))
    [] [] with horganic
  by_cases hempty : organic.1.length = 0
  · have hseen : organic.2.length = 0 := by
      have := queryLoop_balanced env type (tokenizeTopic topic) maxPerType
        ((SOURCE_QUERIES type).map (fun template => template.replace "{topic}" topic))
        [] []
      rw [← horganic] at this
      simp at this
      omega
    rw [if_pos (by omega : organic.1.length < maxPerType)]
    have hos : organic.1 = [] := List.length_eq_zero.mp hempty
    have hss : organic.2 = [] := List.length_eq_zero.mp hseen
    obtain ⟨f, rest, hf⟩ : ∃ f rest, defaultFallbacks env topic type = f :: rest := by
      cases type <;> exact ⟨_, _, rfl⟩
    rw [hos, hss, hf, fallbackLoop]
    rw [if_neg (by simp : ¬ (List.contains [] f.url = true))]
    by_cases hlen : (([] : List DiscoveredSource) ++ [f]).length ≥ maxPerType
    · rw [if_pos hlen]
      simp
    · rw [if_neg hlen]
      refine le_trans ?_ (fallbackLoop_grow maxPerType rest _ _)
      simp
  · by_cases hfill : organic.1.length < maxPerType
    · rw [if_pos hfill]
      exact le_trans (by omega) (fallbackLoop_grow maxPerType _ _ _)
    · rw [if_neg hfill]
      omega

/-- C5: for every non-empty topic and per-category quota `q ∈ {1,2,3}` (and
every behaviour of the search provider and of the platform URL functions),
`discoverSources` returns at most `4·q` sources (at most `q` per category,
four categories, deduplicated across categories by URL) and at least one
source — the synthetic fallback generator always supplies three candidates
per category, so discovery never comes back empty; and if a run's discovery
nonetheless yielded zero sources, the run fails discovery with the
"No sources were discovered" error rather than proceeding. -/
theorem discoverSources_bounds (env : DiscoveryEnv) (topic : String) (q : Nat)
    (hq1 : 1 ≤ q) (hq3 : q ≤ 3) (_htopic : jsTrim topic ≠ "") :
    1 ≤ (discoverSources env topic q).length ∧
    (discoverSources env topic q).length ≤ 4 * q ∧
    (∀ inp : RunInput, (runTopic inp).isEmpty = false → inp.hasApiKey = true →
      inp.discovered = [] →
      (runEvents inp).getLast? =
        some (.error "No sources were discovered for this topic.")) := by
  have hlimit : Nat.max 1 (Nat.min q 3) = q := by
    have h : max 1 (min q 3) = q := by omega
    exact h
  have hset : discoverSources env topic q =
      dedupByUrl
        (discoverByType env topic .docs q ++
         (discoverByType env topic .github q ++
          (discoverByType env topic .stackoverflow q ++
           (discoverByType env topic .blog q ++ [])))) [] := by
    simp [discoverSources, hlimit, SOURCE_TYPES]
  refine ⟨?_, ?_, ?_⟩
  · rw [hset]
    have h1 := discoverByType_length_ge env topic .docs q hq1
    obtain ⟨s, t, hst⟩ := List.exists_cons_of_ne_nil
      (List.length_pos.mp (by omega) :
        discoverByType env topic .docs q ≠ [])
    rw [hst, List.cons_append, dedupByUrl]
    rw [if_neg (by simp)]
    simp
  · rw [hset]
    refine le_trans (dedupByUrl_length_le _ _) ?_
    have h1 := discoverByType_length_le env topic .docs q
    have h2 := discoverByType_length_le env topic .github q
    have h3 := discoverByType_length_le env topic .stackoverflow q
    have h4 := discoverByType_length_le env topic .blog q
    simp only [List.length_append, List.length_nil]
    omega
  · intro inp ht hk hd
    rw [runEvents_nodiscovery_eq inp ht hk (by rw [hd]; rfl), List.getLast?_concat]

/-- Witness for `discoverSources_bounds`: topic `"Docker"`, quota 2, a
search provider that always throws — discovery falls back to the synthetic
sources. -/
theorem discoverSources_bounds_witness :
    ((1 : Nat) ≤ 2 ∧ (2 : Nat) ≤ 3 ∧ jsTrim "Docker" ≠ "") ∧
    (1 ≤ (discoverSources noSearchEnv "Docker" 2).length ∧
     (discoverSources noSearchEnv "Docker" 2).length ≤ 4 * 2 ∧
     (∀ inp : RunInput, (runTopic inp).isEmpty = false → inp.hasApiKey = true →
       inp.discovered = [] →
       (runEvents inp).getLast? =
         some (.error "No sources were discovered for this topic."))) :=
  ⟨⟨by decide, by decide, by decide⟩,
   discoverSources_bounds noSearchEnv "Docker" 2 (by decide) (by decide) (by decide)⟩
